import Mathlib

/-!
# Verification of the parking-assignment manager

Shallow embedding of the assignment/availability engine of the
"Proyecto-Parqueadero-Slud" repository, together with theorems settling the
specification's claims about it.

The embedded functions translate, field by field and branch by branch, the
JavaScript of `src/js/utils/helpers.js`, `src/js/utils/constants.js`,
`src/js/modules/assignments.js` and `src/js/modules/parking.js`.
Conventions used throughout:

* record fields keep the Spanish names of the source (`empleadoId`, `activa`,
  `sotano`, ...);
* a JS `null`/`undefined` field value is `Option.none`;
* the ambient current date (`getCurrentDate()`) and freshly generated ids
  (`generateId()`) are passed as explicit parameters;
* a `confirm(...)` browser dialog is an explicit `confirmed : Bool` parameter;
* a calendar date enters the engine only through `Date.getDay()`, so a date is
  modelled as a day index `date : Nat` with weekday `date % 7`
  (0 = Sunday, as in JS).
-/

namespace Parqueadero

/-! ## Data model

Record shapes as created by `employees.js`, `parking.js` and
`assignments.js` (only fields read by the embedded functions are kept). -/

/-- An employee record (`empleados` store). -/
structure Employee where
  id : Nat
  nombre : String
  cedula : String
  placa : String
  tipoVehiculo : String
  deriving Repr, DecidableEq

/-- A parking-space record (`parqueaderos` store). -/
structure ParkingSpace where
  id : Nat
  numero : String
  sotano : String
  tipo : String
  estado : String
  empleadoAsignado : Option Nat
  fechaCreacion : String
  deriving Repr, DecidableEq

/-- An assignment record (`asignaciones` store). -/
structure Assignment where
  id : Nat
  empleadoId : Nat
  parqueaderoId : Nat
  fechaInicio : String
  fechaFin : Option String
  activa : Bool
  fechaCreacion : String
  deriving Repr, DecidableEq

/-- The three in-memory lists owned by `AssignmentManager`
(`this.employees`, `this.parkingSpaces`, `this.assignments`). -/
structure AppState where
  employees : List Employee
  parkingSpaces : List ParkingSpace
  assignments : List Assignment
  deriving Repr, DecidableEq

/-! ## Constants (`src/js/utils/constants.js`) -/

/-- Embedding of `PARKING_STATUS.DISPONIBLE` -/
def STATUS_DISPONIBLE : String := "disponible"

/-- Embedding of `PARKING_STATUS.OCUPADO` -/
def STATUS_OCUPADO : String := "ocupado"

/-- Embedding of `PARKING_STATUS.MANTENIMIENTO` -/
def STATUS_MANTENIMIENTO : String := "mantenimiento"

/-- Embedding of `APP_CONFIG.MAX_PARKING_SPACES` -/
def MAX_PARKING_SPACES : Nat := 300

/-- Embedding of `Object.values(DAYS_OF_WEEK)`, indexed by `Date.getDay()` (0 = Sunday). -/
def DAYS_OF_WEEK : List String :=
  ["domingo", "lunes", "martes", "miércoles", "jueves", "viernes", "sábado"]

/-- Embedding of `ERROR_MESSAGES.EMPLOYEE_ALREADY_ASSIGNED` -/
def MSG_EMPLOYEE_ALREADY_ASSIGNED : String :=
  "El empleado ya tiene un parqueadero asignado"

/-- Embedding of `ERROR_MESSAGES.PARKING_ALREADY_ASSIGNED` -/
def MSG_PARKING_ALREADY_ASSIGNED : String :=
  "El parqueadero ya está asignado a otro empleado"

/-- Embedding of `ERROR_MESSAGES.VEHICLE_TYPE_MISMATCH` -/
def MSG_VEHICLE_TYPE_MISMATCH : String :=
  "El tipo de vehículo del empleado no coincide con el tipo de parqueadero"

/-! ## Restriction calendar (`helpers.js`) -/

/-- Embedding of `getDayOfWeek`: the date is modelled as a day index; `days[dateObj.getDay()]`
becomes indexing `DAYS_OF_WEEK` at `date % 7`. -/
def getDayOfWeek (date : Nat) : String :=
  DAYS_OF_WEEK.getD (date % 7) ""

/-- JS `parseInt` applied to a one-character string, as in
`parseInt(placa.slice(-1))`: a decimal digit parses to its value, anything
else is `NaN` (modelled as `none`). -/
def parseIntChar (c : Char) : Option Nat :=
  if c.isDigit then some (c.toNat - 48) else none

/-- Embedding of `calculatePicoPlacaDay` (`helpers.js` lines 39–51).  `!placa` is the empty
string (the only falsy string), which is subsumed by `length < 3`; a `NaN`
last digit falls through every comparison and returns `null`. -/
def calculatePicoPlacaDay (placa : String) : Option String :=
  if placa.length < 3 then none
  else
    match parseIntChar placa.back with
    | none => none
    | some lastDigit =>
      if lastDigit = 1 ∨ lastDigit = 2 then some "lunes"
      else if lastDigit = 3 ∨ lastDigit = 4 then some "martes"
      else if lastDigit = 5 ∨ lastDigit = 6 then some "miércoles"
      else if lastDigit = 7 ∨ lastDigit = 8 then some "jueves"
      else if lastDigit = 9 ∨ lastDigit = 0 then some "viernes"
      else none

/-- The fixed five-day table of §4.1 of the spec, keyed by the last digit. -/
def picoPlacaTable (d : Nat) : String :=
  if d = 1 ∨ d = 2 then "lunes"
  else if d = 3 ∨ d = 4 then "martes"
  else if d = 5 ∨ d = 6 then "miércoles"
  else if d = 7 ∨ d = 8 then "jueves"
  else "viernes"

/-! ## Daily availability (`helpers.js`, `calculateDailyAvailability`) -/

/-- An element pushed onto one of the three result arrays: the space record
spread with an optional `empleado` field and a `motivo` string. -/
structure AvailEntry where
  space : ParkingSpace
  empleado : Option Employee
  motivo : String
  deriving Repr, DecidableEq

/-- The object returned by `calculateDailyAvailability` (the numeric
`summary` fields are the lengths of the three lists and are omitted). -/
structure DailyAvailability where
  available : List AvailEntry
  picoPlaca : List AvailEntry
  occupied : List AvailEntry
  deriving Repr, DecidableEq

/-- The `parkingSpaces.forEach` loop of `calculateDailyAvailability`,
processed head first so the three arrays keep the source's push order. -/
def availabilityGo (employees : List Employee) (dayOfWeek : String) :
    List ParkingSpace → DailyAvailability
  | [] => ⟨[], [], []⟩
  | s :: rest =>
    let r := availabilityGo employees dayOfWeek rest
    if s.estado == STATUS_MANTENIMIENTO then r
    else
      match s.empleadoAsignado with
      | none => { r with available := ⟨s, none, "Sin asignación"⟩ :: r.available }
      | some eid =>
        match employees.find? (fun e => e.id == eid) with
        | none =>
          { r with available := ⟨s, none, "Empleado no encontrado"⟩ :: r.available }
        | some emp =>
          if calculatePicoPlacaDay emp.placa == some dayOfWeek then
            { r with picoPlaca :=
                ⟨s, some emp, "Pico y placa - " ++ dayOfWeek⟩ :: r.picoPlaca }
          else
            { r with occupied :=
                ⟨s, some emp, "Ocupado normalmente"⟩ :: r.occupied }

/-- Embedding of `calculateDailyAvailability` (`helpers.js` lines 71–119). -/
def calculateDailyAvailability (parkingSpaces : List ParkingSpace)
    (employees : List Employee) (date : Nat) : DailyAvailability :=
  availabilityGo employees (getDayOfWeek date) parkingSpaces

/-- Classification outcome of one space inside the availability loop
(proof infrastructure mirroring the loop's branch structure). -/
inductive SpaceClass where
  | excluded
  | avail
  | pico
  | occ
  deriving Repr, DecidableEq

/-- Which branch of the loop body a space takes. -/
def classifySpace (employees : List Employee) (dayOfWeek : String)
    (s : ParkingSpace) : SpaceClass :=
  if s.estado == STATUS_MANTENIMIENTO then .excluded
  else
    match s.empleadoAsignado with
    | none => .avail
    | some eid =>
      match employees.find? (fun e => e.id == eid) with
      | none => .avail
      | some emp =>
        if calculatePicoPlacaDay emp.placa == some dayOfWeek then .pico else .occ

/-- The entry the loop body would push for a space. -/
def entryForSpace (employees : List Employee) (dayOfWeek : String)
    (s : ParkingSpace) : AvailEntry :=
  match s.empleadoAsignado with
  | none => ⟨s, none, "Sin asignación"⟩
  | some eid =>
    match employees.find? (fun e => e.id == eid) with
    | none => ⟨s, none, "Empleado no encontrado"⟩
    | some emp =>
      if calculatePicoPlacaDay emp.placa == some dayOfWeek then
        ⟨s, some emp, "Pico y placa - " ++ dayOfWeek⟩
      else
        ⟨s, some emp, "Ocupado normalmente"⟩

theorem entryForSpace_space (employees : List Employee) (dayOfWeek : String)
    (s : ParkingSpace) : (entryForSpace employees dayOfWeek s).space = s := by
  rcases ha : s.empleadoAsignado with _ | eid <;>
    simp only [entryForSpace, ha]
  rcases hf : employees.find? (fun e => e.id == eid) with _ | emp <;>
    simp only [hf]
  split <;> rfl

/-- Structural description of the loop: each result array is the filter of the
input on the corresponding classification, mapped through `entryForSpace`. -/
theorem availabilityGo_eq (employees : List Employee) (dayOfWeek : String)
    (l : List ParkingSpace) :
    availabilityGo employees dayOfWeek l =
      ⟨((l.filter
          (fun s => decide (classifySpace employees dayOfWeek s = .avail))).map
          (entryForSpace employees dayOfWeek)),
        ((l.filter
          (fun s => decide (classifySpace employees dayOfWeek s = .pico))).map
          (entryForSpace employees dayOfWeek)),
        ((l.filter
          (fun s => decide (classifySpace employees dayOfWeek s = .occ))).map
          (entryForSpace employees dayOfWeek))⟩ := by
  induction l with
  | nil => rfl
  | cons s rest ih =>
    by_cases hm : s.estado == STATUS_MANTENIMIENTO
    · have hc : classifySpace employees dayOfWeek s = .excluded := by
        simp [classifySpace, hm]
      simp only [availabilityGo, hm, if_true, ih, List.filter_cons, hc]
      simp
    · rcases ha : s.empleadoAsignado with _ | eid
      · have hc : classifySpace employees dayOfWeek s = .avail := by
          simp [classifySpace, hm, ha]
        have he : entryForSpace employees dayOfWeek s =
            ⟨s, none, "Sin asignación"⟩ := by
          simp [entryForSpace, ha]
        simp only [availabilityGo, hm, Bool.false_eq_true, if_false, ha, ih,
          List.filter_cons, hc, he]
        simp [he]
      · rcases hf : employees.find? (fun e => e.id == eid) with _ | emp
        · have hc : classifySpace employees dayOfWeek s = .avail := by
            simp [classifySpace, hm, ha, hf]
          have he : entryForSpace employees dayOfWeek s =
              ⟨s, none, "Empleado no encontrado"⟩ := by
            simp [entryForSpace, ha, hf]
          simp only [availabilityGo, hm, Bool.false_eq_true, if_false, ha, hf,
            ih, List.filter_cons, hc, he]
          simp [he]
        · by_cases hp : calculatePicoPlacaDay emp.placa == some dayOfWeek
          · have hc : classifySpace employees dayOfWeek s = .pico := by
              simp [classifySpace, hm, ha, hf, hp]
            have he : entryForSpace employees dayOfWeek s =
                ⟨s, some emp, "Pico y placa - " ++ dayOfWeek⟩ := by
              simp [entryForSpace, ha, hf, hp]
            simp only [availabilityGo, hm, Bool.false_eq_true, if_false, ha,
              hf, hp, if_true, ih, List.filter_cons, hc, he]
            simp [he]
          · have hc : classifySpace employees dayOfWeek s = .occ := by
              simp [classifySpace, hm, ha, hf, hp]
            have he : entryForSpace employees dayOfWeek s =
                ⟨s, some emp, "Ocupado normalmente"⟩ := by
              simp [entryForSpace, ha, hf, hp]
            simp only [availabilityGo, hm, Bool.false_eq_true, if_false, ha,
              hf, hp, ih, List.filter_cons, hc, he]
            simp [he]

/-- The space has no assignee recorded, or the recorded assignee matches no
employee in the roster (clause (a) of the partition, as coded). -/
def spaceUnassignedOrDangling (employees : List Employee) (s : ParkingSpace) : Prop :=
  s.empleadoAsignado = none ∨
    ∃ eid, s.empleadoAsignado = some eid ∧
      employees.find? (fun e => e.id == eid) = none

/-- The recorded assignee exists and is restricted on the given weekday
(clause (b) of the partition). -/
def spaceRestrictedToday (employees : List Employee) (dayOfWeek : String)
    (s : ParkingSpace) : Prop :=
  ∃ eid emp, s.empleadoAsignado = some eid ∧
    employees.find? (fun e => e.id == eid) = some emp ∧
    calculatePicoPlacaDay emp.placa = some dayOfWeek

/-- The recorded assignee exists and is not restricted on the given weekday
(clause (c) of the partition). -/
def spaceOccupiedToday (employees : List Employee) (dayOfWeek : String)
    (s : ParkingSpace) : Prop :=
  ∃ eid emp, s.empleadoAsignado = some eid ∧
    employees.find? (fun e => e.id == eid) = some emp ∧
    calculatePicoPlacaDay emp.placa ≠ some dayOfWeek

theorem classifySpace_avail_iff (employees : List Employee) (dayOfWeek : String)
    (s : ParkingSpace) :
    classifySpace employees dayOfWeek s = .avail ↔
      s.estado ≠ STATUS_MANTENIMIENTO ∧ spaceUnassignedOrDangling employees s := by
  by_cases hm : s.estado == STATUS_MANTENIMIENTO
  · have hm' : s.estado = STATUS_MANTENIMIENTO := by simpa using hm
    simp [classifySpace, hm, hm']
  · have hm' : s.estado ≠ STATUS_MANTENIMIENTO := by simpa using hm
    rcases ha : s.empleadoAsignado with _ | eid
    · simp [classifySpace, hm, ha, spaceUnassignedOrDangling, hm']
    · rcases hf : employees.find? (fun e => e.id == eid) with _ | emp
      · have hf' : ∀ x ∈ employees, ¬ x.id = eid := by
          intro x hx
          have hh := List.find?_eq_none.mp hf x hx
          simpa using hh
        simp [classifySpace, hm, ha, hf, spaceUnassignedOrDangling, hm']
        exact hf'
      · have hmem := List.mem_of_find?_eq_some hf
        have hid : emp.id = eid := by simpa using List.find?_some hf
        by_cases hp : calculatePicoPlacaDay emp.placa == some dayOfWeek
        · simp only [classifySpace, hm, Bool.false_eq_true, if_false, ha, hf,
            hp, if_true, spaceUnassignedOrDangling]
          simp [hm']
          exact ⟨emp, hmem, hid⟩
        · simp only [classifySpace, hm, Bool.false_eq_true, if_false, ha, hf,
            hp, spaceUnassignedOrDangling]
          simp [hm']
          exact ⟨emp, hmem, hid⟩

theorem classifySpace_pico_iff (employees : List Employee) (dayOfWeek : String)
    (s : ParkingSpace) :
    classifySpace employees dayOfWeek s = .pico ↔
      s.estado ≠ STATUS_MANTENIMIENTO ∧
        spaceRestrictedToday employees dayOfWeek s := by
  by_cases hm : s.estado == STATUS_MANTENIMIENTO
  · have hm' : s.estado = STATUS_MANTENIMIENTO := by simpa using hm
    simp [classifySpace, hm, hm']
  · have hm' : s.estado ≠ STATUS_MANTENIMIENTO := by simpa using hm
    rcases ha : s.empleadoAsignado with _ | eid
    · simp [classifySpace, hm, ha, spaceRestrictedToday, hm']
    · rcases hf : employees.find? (fun e => e.id == eid) with _ | emp
      · have hf' : ∀ x ∈ employees, ¬ x.id = eid := by
          intro x hx
          have hh := List.find?_eq_none.mp hf x hx
          simpa using hh
        simp [classifySpace, hm, ha, hf, spaceRestrictedToday, hm']
      · by_cases hp : calculatePicoPlacaDay emp.placa == some dayOfWeek
        · have hp' : calculatePicoPlacaDay emp.placa = some dayOfWeek := by
            simpa using hp
          simp [classifySpace, hm, ha, hf, hp, spaceRestrictedToday, hm', hp']
        · have hp' : calculatePicoPlacaDay emp.placa ≠ some dayOfWeek := by
            simpa using hp
          simp [classifySpace, hm, ha, hf, hp, spaceRestrictedToday, hm', hp']

theorem classifySpace_occ_iff (employees : List Employee) (dayOfWeek : String)
    (s : ParkingSpace) :
    classifySpace employees dayOfWeek s = .occ ↔
      s.estado ≠ STATUS_MANTENIMIENTO ∧
        spaceOccupiedToday employees dayOfWeek s := by
  by_cases hm : s.estado == STATUS_MANTENIMIENTO
  · have hm' : s.estado = STATUS_MANTENIMIENTO := by simpa using hm
    simp [classifySpace, hm, hm']
  · have hm' : s.estado ≠ STATUS_MANTENIMIENTO := by simpa using hm
    rcases ha : s.empleadoAsignado with _ | eid
    · simp [classifySpace, hm, ha, spaceOccupiedToday, hm']
    · rcases hf : employees.find? (fun e => e.id == eid) with _ | emp
      · have hf' : ∀ x ∈ employees, ¬ x.id = eid := by
          intro x hx
          have hh := List.find?_eq_none.mp hf x hx
          simpa using hh
        simp [classifySpace, hm, ha, hf, spaceOccupiedToday, hm']
      · by_cases hp : calculatePicoPlacaDay emp.placa == some dayOfWeek
        · have hp' : calculatePicoPlacaDay emp.placa = some dayOfWeek := by
            simpa using hp
          simp [classifySpace, hm, ha, hf, hp, spaceOccupiedToday, hm', hp']
        · have hp' : calculatePicoPlacaDay emp.placa ≠ some dayOfWeek := by
            simpa using hp
          simp [classifySpace, hm, ha, hf, hp, spaceOccupiedToday, hm', hp']

/-- Membership of a space in one of the three result arrays, through the
`space` projection of the pushed entries. -/
theorem mem_availability_iff (parkingSpaces : List ParkingSpace)
    (employees : List Employee) (date : Nat) (s : ParkingSpace) (c : SpaceClass)
    (l : List AvailEntry)
    (hl : l = ((parkingSpaces.filter
      (fun x => decide (classifySpace employees (getDayOfWeek date) x = c))).map
        (entryForSpace employees (getDayOfWeek date)))) :
    s ∈ l.map AvailEntry.space ↔
      s ∈ parkingSpaces ∧ classifySpace employees (getDayOfWeek date) s = c := by
  subst hl
  simp only [List.map_map, List.mem_map, Function.comp, List.mem_filter,
    decide_eq_true_eq]
  constructor
  · rintro ⟨x, ⟨hx, hcx⟩, hsp⟩
    rw [entryForSpace_space] at hsp
    subst hsp
    exact ⟨hx, hcx⟩
  · rintro ⟨hx, hcx⟩
    exact ⟨s, ⟨hx, hcx⟩, entryForSpace_space _ _ _⟩

theorem classifySpace_ne_excluded (employees : List Employee)
    (dayOfWeek : String) (s : ParkingSpace)
    (h : s.estado ≠ STATUS_MANTENIMIENTO) :
    classifySpace employees dayOfWeek s ≠ .excluded := by
  have hm : (s.estado == STATUS_MANTENIMIENTO) = false := by
    simpa using h
  unfold classifySpace
  rw [hm]
  simp only [Bool.false_eq_true, if_false]
  split
  · simp
  · split
    · simp
    · split <;> simp

end Parqueadero

namespace Parqueadero

/-! ## Theorems for claim C3 -/

/-- C3 (counterexample): the claim states that for every plate of length ≥ 3
the function returns one of the 5 weekdays.  The plate "ABCX" has length 4,
yet `calculatePicoPlacaDay` returns `none` (the last character has no digit
class, so `parseInt` yields `NaN` and every branch falls through). -/
theorem C3_counterexample :
    3 ≤ "ABCX".length ∧ calculatePicoPlacaDay "ABCX" = none := by
  constructor
  · decide
  · rfl

/-- C3 (amended): for every plate string, `calculatePicoPlacaDay` returns
`none` when the plate is shorter than 3 characters (which covers the absent
plate, modelled as the empty string) or when its last character is not a
decimal digit; otherwise it returns exactly the weekday that the fixed
five-day table assigns to the last character's digit, so the result is
determined solely by the last character.  The function is total by
construction. -/
theorem C3_amended (placa : String) :
    (placa.length < 3 → calculatePicoPlacaDay placa = none) ∧
    (3 ≤ placa.length → ¬ placa.back.isDigit →
      calculatePicoPlacaDay placa = none) ∧
    (3 ≤ placa.length → placa.back.isDigit →
      calculatePicoPlacaDay placa =
        some (picoPlacaTable (placa.back.toNat - 48))) ∧
    (∀ q : String, 3 ≤ q.length → q.back = placa.back → 3 ≤ placa.length →
      calculatePicoPlacaDay q = calculatePicoPlacaDay placa) := by
  refine ⟨?_, ?_, ?_, ?_⟩
  · intro h
    simp [calculatePicoPlacaDay, h]
  · intro h hd
    simp only [calculatePicoPlacaDay, parseIntChar, hd]
    rw [if_neg (by omega)]
    simp [hd]
  · intro h hd
    simp only [calculatePicoPlacaDay, parseIntChar, hd]
    rw [if_neg (by omega)]
    simp only [hd, if_true, picoPlacaTable]
    have hlt : placa.back.toNat - 48 ≤ 9 := by
      simp only [Char.isDigit, Bool.and_eq_true, decide_eq_true_eq] at hd
      obtain ⟨h1, h2⟩ := hd
      have h2n : placa.back.val.toNat ≤ 57 := by exact h2
      simp only [Char.toNat]
      omega
    set d := placa.back.toNat - 48 with hdef
    interval_cases d <;> simp
  · intro q hq hback h
    simp only [calculatePicoPlacaDay, hback]
    rw [if_neg (by omega), if_neg (by omega)]

/-- C3 witness: the amended theorem applied to the concrete plate "ABC123":
its restriction day is Tuesday (`martes`), as the table assigns to the last
digit 3. -/
theorem C3_amended_witness :
    (3 ≤ "ABC123".length → ("ABC123".back.isDigit : Prop) →
      calculatePicoPlacaDay "ABC123" =
        some (picoPlacaTable ("ABC123".back.toNat - 48))) ∧
    calculatePicoPlacaDay "ABC123" = some "martes" := by
  constructor
  · exact (C3_amended "ABC123").2.2.1
  · exact (C3_amended "ABC123").2.2.1 (by decide) (by decide)

end Parqueadero

namespace Parqueadero

/-! ## Theorems for claims C2 and C10 -/

/-- C2: for every list of spaces, every roster and every date, the
daily-availability computation partitions the non-maintenance spaces
exhaustively and disjointly: a maintenance space appears in none of the three
returned arrays; any other listed space appears in exactly one of them; and
membership is characterised exactly by the coded conditions — no recorded (or
a dangling) assignee puts the space in `available`, an existing assignee
restricted on the date's weekday puts it in `picoPlaca`, an existing assignee
not restricted that day puts it in `occupied`. -/
theorem C2_daily_availability_partition (parkingSpaces : List ParkingSpace)
    (employees : List Employee) (date : Nat) (s : ParkingSpace) :
    (s.estado = STATUS_MANTENIMIENTO →
      s ∉ (calculateDailyAvailability parkingSpaces employees date).available.map
          AvailEntry.space ∧
      s ∉ (calculateDailyAvailability parkingSpaces employees date).picoPlaca.map
          AvailEntry.space ∧
      s ∉ (calculateDailyAvailability parkingSpaces employees date).occupied.map
          AvailEntry.space) ∧
    (s ∈ parkingSpaces → s.estado ≠ STATUS_MANTENIMIENTO →
      (s ∈ (calculateDailyAvailability parkingSpaces employees date).available.map
          AvailEntry.space ∧
        s ∉ (calculateDailyAvailability parkingSpaces employees date).picoPlaca.map
          AvailEntry.space ∧
        s ∉ (calculateDailyAvailability parkingSpaces employees date).occupied.map
          AvailEntry.space) ∨
      (s ∉ (calculateDailyAvailability parkingSpaces employees date).available.map
          AvailEntry.space ∧
        s ∈ (calculateDailyAvailability parkingSpaces employees date).picoPlaca.map
          AvailEntry.space ∧
        s ∉ (calculateDailyAvailability parkingSpaces employees date).occupied.map
          AvailEntry.space) ∨
      (s ∉ (calculateDailyAvailability parkingSpaces employees date).available.map
          AvailEntry.space ∧
        s ∉ (calculateDailyAvailability parkingSpaces employees date).picoPlaca.map
          AvailEntry.space ∧
        s ∈ (calculateDailyAvailability parkingSpaces employees date).occupied.map
          AvailEntry.space)) ∧
    (s ∈ (calculateDailyAvailability parkingSpaces employees date).available.map
        AvailEntry.space ↔
      s ∈ parkingSpaces ∧ s.estado ≠ STATUS_MANTENIMIENTO ∧
        spaceUnassignedOrDangling employees s) ∧
    (s ∈ (calculateDailyAvailability parkingSpaces employees date).picoPlaca.map
        AvailEntry.space ↔
      s ∈ parkingSpaces ∧ s.estado ≠ STATUS_MANTENIMIENTO ∧
        spaceRestrictedToday employees (getDayOfWeek date) s) ∧
    (s ∈ (calculateDailyAvailability parkingSpaces employees date).occupied.map
        AvailEntry.space ↔
      s ∈ parkingSpaces ∧ s.estado ≠ STATUS_MANTENIMIENTO ∧
        spaceOccupiedToday employees (getDayOfWeek date) s) := by
  have hgo := availabilityGo_eq employees (getDayOfWeek date) parkingSpaces
  have hA := mem_availability_iff parkingSpaces employees date s SpaceClass.avail
    ((calculateDailyAvailability parkingSpaces employees date).available)
    (by rw [calculateDailyAvailability, hgo])
  have hP := mem_availability_iff parkingSpaces employees date s SpaceClass.pico
    ((calculateDailyAvailability parkingSpaces employees date).picoPlaca)
    (by rw [calculateDailyAvailability, hgo])
  have hO := mem_availability_iff parkingSpaces employees date s SpaceClass.occ
    ((calculateDailyAvailability parkingSpaces employees date).occupied)
    (by rw [calculateDailyAvailability, hgo])
  have hAc := classifySpace_avail_iff employees (getDayOfWeek date) s
  have hPc := classifySpace_pico_iff employees (getDayOfWeek date) s
  have hOc := classifySpace_occ_iff employees (getDayOfWeek date) s
  refine ⟨?_, ?_, ?_, ?_, ?_⟩
  · intro hmant
    refine ⟨?_, ?_, ?_⟩
    · intro hmem
      exact (hAc.mp (hA.mp hmem).2).1 hmant
    · intro hmem
      exact (hPc.mp (hP.mp hmem).2).1 hmant
    · intro hmem
      exact (hOc.mp (hO.mp hmem).2).1 hmant
  · intro hsmem hnm
    rcases hclass : classifySpace employees (getDayOfWeek date) s with _ | _ | _ | _
    · exact absurd hclass (classifySpace_ne_excluded employees (getDayOfWeek date) s hnm)
    · refine Or.inl ⟨hA.mpr ⟨hsmem, hclass⟩, ?_, ?_⟩
      · intro hmem
        exact absurd ((hP.mp hmem).2.symm.trans hclass) (by decide)
      · intro hmem
        exact absurd ((hO.mp hmem).2.symm.trans hclass) (by decide)
    · refine Or.inr (Or.inl ⟨?_, hP.mpr ⟨hsmem, hclass⟩, ?_⟩)
      · intro hmem
        exact absurd ((hA.mp hmem).2.symm.trans hclass) (by decide)
      · intro hmem
        exact absurd ((hO.mp hmem).2.symm.trans hclass) (by decide)
    · refine Or.inr (Or.inr ⟨?_, ?_, hO.mpr ⟨hsmem, hclass⟩⟩)
      · intro hmem
        exact absurd ((hA.mp hmem).2.symm.trans hclass) (by decide)
      · intro hmem
        exact absurd ((hP.mp hmem).2.symm.trans hclass) (by decide)
  · exact hA.trans (and_congr_right fun _ => hAc)
  · exact hP.trans (and_congr_right fun _ => hPc)
  · exact hO.trans (and_congr_right fun _ => hOc)

/-- Employee used by concrete scenarios: plate "ABC127" (last digit 7, so the
restriction day is Thursday). -/
def empAna : Employee :=
  ⟨1, "Ana", "123456", "ABC127", "carro"⟩

/-- Space used by concrete scenarios: occupied, assigned to employee 1. -/
def spC001 : ParkingSpace :=
  ⟨1, "S1-C001", "-1", "carro", "ocupado", some 1, "2024-01-01"⟩

/-- C2 witness: with roster `[empAna]` and space `[spC001]` (assigned to Ana)
on a Thursday (day index 4), the space lands exactly in the
pico-y-placa array. -/
theorem C2_daily_availability_partition_witness :
    (spC001 ∈ [spC001] ∧ spC001.estado ≠ STATUS_MANTENIMIENTO ∧
      spaceRestrictedToday [empAna] (getDayOfWeek 4) spC001) ∧
    spC001 ∈ (calculateDailyAvailability [spC001] [empAna] 4).picoPlaca.map
        AvailEntry.space ∧
    spC001 ∉ (calculateDailyAvailability [spC001] [empAna] 4).available.map
        AvailEntry.space ∧
    spC001 ∉ (calculateDailyAvailability [spC001] [empAna] 4).occupied.map
        AvailEntry.space := by
  have hmem : spC001 ∈ [spC001] := by simp
  have hnm : spC001.estado ≠ STATUS_MANTENIMIENTO := by decide
  have hcond : spaceRestrictedToday [empAna] (getDayOfWeek 4) spC001 :=
    ⟨1, empAna, rfl, rfl, rfl⟩
  have hthm := C2_daily_availability_partition [spC001] [empAna] 4 spC001
  have hPmem : spC001 ∈ (calculateDailyAvailability [spC001] [empAna] 4).picoPlaca.map
      AvailEntry.space := hthm.2.2.2.1.mpr ⟨hmem, hnm, hcond⟩
  rcases hthm.2.1 hmem hnm with ⟨-, hnp, -⟩ | ⟨hna, -, hno⟩ | ⟨-, hnp, -⟩
  · exact absurd hPmem hnp
  · exact ⟨⟨hmem, hnm, hcond⟩, hPmem, hna, hno⟩
  · exact absurd hPmem hnp

/-- C10: a non-maintenance space whose recorded assignee matches no employee
in the roster is classified as available, with the reason string
"Empleado no encontrado" and no employee attached, and it appears in neither
the pico-y-placa nor the occupied array. -/
theorem C10_dangling_assignee_is_available (parkingSpaces : List ParkingSpace)
    (employees : List Employee) (date : Nat) (s : ParkingSpace)
    (hs : s ∈ parkingSpaces) (hm : s.estado ≠ STATUS_MANTENIMIENTO)
    (eid : Nat) (ha : s.empleadoAsignado = some eid)
    (hf : employees.find? (fun e => e.id == eid) = none) :
    (∃ en ∈ (calculateDailyAvailability parkingSpaces employees date).available,
      en.space = s ∧ en.empleado = none ∧ en.motivo = "Empleado no encontrado") ∧
    s ∉ (calculateDailyAvailability parkingSpaces employees date).picoPlaca.map
        AvailEntry.space ∧
    s ∉ (calculateDailyAvailability parkingSpaces employees date).occupied.map
        AvailEntry.space := by
  have hclass : classifySpace employees (getDayOfWeek date) s = .avail :=
    (classifySpace_avail_iff employees (getDayOfWeek date) s).mpr
      ⟨hm, Or.inr ⟨eid, ha, hf⟩⟩
  have hentry : entryForSpace employees (getDayOfWeek date) s =
      ⟨s, none, "Empleado no encontrado"⟩ := by
    simp [entryForSpace, ha, hf]
  have hgo := availabilityGo_eq employees (getDayOfWeek date) parkingSpaces
  have hthm := C2_daily_availability_partition parkingSpaces employees date s
  refine ⟨?_, ?_, ?_⟩
  · refine ⟨entryForSpace employees (getDayOfWeek date) s, ?_, ?_⟩
    · have : (calculateDailyAvailability parkingSpaces employees date).available =
          ((parkingSpaces.filter (fun x =>
            decide (classifySpace employees (getDayOfWeek date) x = .avail))).map
            (entryForSpace employees (getDayOfWeek date))) := by
        rw [calculateDailyAvailability, hgo]
      rw [this]
      exact List.mem_map_of_mem _ (List.mem_filter.mpr ⟨hs, by simp [hclass]⟩)
    · rw [hentry]
      exact ⟨rfl, rfl, rfl⟩
  · intro hmemP
    have := (hthm.2.2.2.1.mp hmemP).2.2
    rcases this with ⟨eid', emp', ha', hf', -⟩
    rw [ha] at ha'
    injection ha' with ha'
    subst ha'
    rw [hf] at hf'
    exact absurd hf' (by simp)
  · intro hmemO
    have := (hthm.2.2.2.2.mp hmemO).2.2
    rcases this with ⟨eid', emp', ha', hf', -⟩
    rw [ha] at ha'
    injection ha' with ha'
    subst ha'
    rw [hf] at hf'
    exact absurd hf' (by simp)

/-- Space with a dangling assignee reference (employee 99 is not in the
roster). -/
def spDangling : ParkingSpace :=
  ⟨2, "S1-C002", "-1", "carro", "ocupado", some 99, "2024-01-01"⟩

/-- C10 witness: space 2 references employee 99, absent from the roster
`[empAna]`; on day 0 the space is put in `available` with reason
"Empleado no encontrado". -/
theorem C10_dangling_assignee_is_available_witness :
    (spDangling ∈ [spDangling] ∧
      spDangling.estado ≠ STATUS_MANTENIMIENTO ∧
      spDangling.empleadoAsignado = some 99 ∧
      ([empAna].find? (fun e => e.id == 99) = none)) ∧
    (∃ en ∈ (calculateDailyAvailability [spDangling] [empAna] 0).available,
      en.space = spDangling ∧ en.empleado = none ∧
        en.motivo = "Empleado no encontrado") ∧
    spDangling ∉ (calculateDailyAvailability [spDangling] [empAna] 0).picoPlaca.map
        AvailEntry.space ∧
    spDangling ∉ (calculateDailyAvailability [spDangling] [empAna] 0).occupied.map
        AvailEntry.space := by
  refine ⟨⟨by simp, by decide, rfl, rfl⟩, ?_⟩
  exact C10_dangling_assignee_is_available [spDangling] [empAna] 0 spDangling
    (by simp) (by decide) 99 rfl rfl

end Parqueadero

namespace Parqueadero

/-! ## Assignment manager (`assignments.js`) -/

/-- The object returned by `validateAssignment`: `{ isValid, message }`.
For the two not-found branches the source reads
`ERROR_MESSAGES.EMPLOYEE_NOT_FOUND` / `ERROR_MESSAGES.PARKING_NOT_FOUND`,
keys that `constants.js` does not define, so the message is JS `undefined`
(modelled as `none`). -/
structure ValidationResult where
  isValid : Bool
  message : Option String
  deriving Repr, DecidableEq

/-- Embedding of `validateAssignment` (`assignments.js` lines 101–136). -/
def validateAssignment (st : AppState) (empleadoId parqueaderoId : Nat) :
    ValidationResult :=
  match st.employees.find? (fun emp => emp.id == empleadoId) with
  | none => ⟨false, none⟩
  | some employee =>
    match st.parkingSpaces.find? (fun space => space.id == parqueaderoId) with
    | none => ⟨false, none⟩
    | some parkingSpace =>
      if st.assignments.any (fun a => a.empleadoId == empleadoId && a.activa) then
        ⟨false, some MSG_EMPLOYEE_ALREADY_ASSIGNED⟩
      else if st.assignments.any
          (fun a => a.parqueaderoId == parqueaderoId && a.activa) then
        ⟨false, some MSG_PARKING_ALREADY_ASSIGNED⟩
      else if employee.tipoVehiculo ≠ parkingSpace.tipo then
        ⟨false, some MSG_VEHICLE_TYPE_MISMATCH⟩
      else
        ⟨true, none⟩

/-- The form data consumed by `createAssignment` / `handleFormSubmit`
(`getFormData`).  A failed `parseInt` (`NaN`) and an empty select collapse to
id `0`, which is falsy in JS exactly like `NaN`. -/
structure AssignmentFormData where
  empleadoId : Nat
  parqueaderoId : Nat
  fechaInicio : String
  fechaFin : Option String
  deriving Repr, DecidableEq

/-- Embedding of `validateAssignmentData`: JS truthiness of the three required fields. -/
def validateAssignmentData (data : AssignmentFormData) : Bool :=
  data.empleadoId != 0 && data.parqueaderoId != 0 && data.fechaInicio != ""

/-- Mutation of the first array element satisfying a predicate, as performed
by `array.find(...)` followed by in-place field updates on the found object. -/
def updateFirst (p : α → Bool) (f : α → α) : List α → List α
  | [] => []
  | x :: xs => if p x then f x :: xs else x :: updateFirst p f xs

/-- Embedding of `createAssignment` (`assignments.js` lines 138–159): build the assignment
record (`activa = true`), set `empleadoAsignado`/`estado` on the referenced
space if it exists, and push the record.  `generateId()` and
`getCurrentDate()` are the `newId`/`today` parameters. -/
def createAssignment (st : AppState) (formData : AssignmentFormData)
    (newId : Nat) (today : String) : AppState :=
  let assignment : Assignment :=
    { id := newId
      empleadoId := formData.empleadoId
      parqueaderoId := formData.parqueaderoId
      fechaInicio := formData.fechaInicio
      fechaFin := formData.fechaFin
      activa := true
      fechaCreacion := today }
  { st with
    parkingSpaces :=
      updateFirst (fun space => space.id == formData.parqueaderoId)
        (fun space =>
          { space with
            empleadoAsignado := some formData.empleadoId
            estado := STATUS_OCUPADO })
        st.parkingSpaces
    assignments := st.assignments ++ [assignment] }

/-- Outcome surfaced by `handleFormSubmit` through `showAlert`. -/
inductive SubmitOutcome where
  | missingFields
  | rejected (result : ValidationResult)
  | created
  deriving Repr, DecidableEq

/-- Embedding of `handleFormSubmit` (`assignments.js` lines 61–86): required-field check,
then `validateAssignment`, then — only if both pass — `createAssignment`. -/
def handleFormSubmit (st : AppState) (formData : AssignmentFormData)
    (newId : Nat) (today : String) : AppState × SubmitOutcome :=
  if !(validateAssignmentData formData) then
    (st, .missingFields)
  else
    let validation := validateAssignment st formData.empleadoId formData.parqueaderoId
    if validation.isValid then
      (createAssignment st formData newId today, .created)
    else
      (st, .rejected validation)

/-- Embedding of `endAssignment` (`assignments.js` lines 161–189): find the assignment by
id (no check of its `activa` flag), ask for confirmation, then mark it
inactive, stamp `fechaFin` with today's date, and reset the referenced
space. -/
def endAssignment (st : AppState) (assignmentId : Nat) (today : String)
    (confirmed : Bool) : AppState :=
  match st.assignments.find? (fun a => a.id == assignmentId) with
  | none => st
  | some assignment =>
    if !confirmed then st
    else
      { st with
        assignments :=
          updateFirst (fun a => a.id == assignmentId)
            (fun a => { a with activa := false, fechaFin := some today })
            st.assignments
        parkingSpaces :=
          updateFirst (fun space => space.id == assignment.parqueaderoId)
            (fun space =>
              { space with
                empleadoAsignado := none
                estado := STATUS_DISPONIBLE })
            st.parkingSpaces }

/-- The per-space test of the loop body's
`availableSpaces.filter(space => space.tipo === employee.tipoVehiculo &&
!space.empleadoAsignado)`: the captured array holds live references, so each
iteration reads the space's current fields; here the current record is fetched
from the current state by id. -/
def loopSpaceOk (st : AppState) (tipoVehiculo : String) (sid : Nat) : Bool :=
  match st.parkingSpaces.find? (fun space => space.id == sid) with
  | some space => space.tipo == tipoVehiculo && space.empleadoAsignado == none
  | none => false

/-- The `for (const employee of unassignedEmployees)` loop of
`performAutoAssignment`.  `availIds` is the id list of the `availableSpaces`
array captured before the loop; each iteration re-reads the current state of
those spaces (see `loopSpaceOk`), takes the first compatible one and runs
`createAssignment` on the pair.  Besides the final state and the count, the
loop returns an instrumentation trace of the `createAssignment` calls — the
pre-state and the (employee id, space id) pair of each — which does not
influence the computation. -/
def performAutoAssignmentLoop (today : String) (freshId : Nat → Nat)
    (availIds : List Nat) :
    List Employee → AppState → Nat → AppState × Nat × List (AppState × Nat × Nat)
  | [], st, _ => (st, 0, [])
  | employee :: rest, st, k =>
    match availIds.filter (loopSpaceOk st employee.tipoVehiculo) with
    | [] => performAutoAssignmentLoop today freshId availIds rest st k
    | sid :: _ =>
      ((performAutoAssignmentLoop today freshId availIds rest
          (createAssignment st ⟨employee.id, sid, today, none⟩ (freshId k) today)
          (k + 1)).1,
        (performAutoAssignmentLoop today freshId availIds rest
          (createAssignment st ⟨employee.id, sid, today, none⟩ (freshId k) today)
          (k + 1)).2.1 + 1,
        (st, employee.id, sid) ::
          (performAutoAssignmentLoop today freshId availIds rest
            (createAssignment st ⟨employee.id, sid, today, none⟩ (freshId k) today)
            (k + 1)).2.2)

/-- Embedding of `performAutoAssignment` (`assignments.js` lines 191–244): employees with
no active assignment, spaces that are `disponible` with no active assignment,
early exits when either list is empty or the confirm dialog is declined, then
the greedy loop.  The `Nat` component is the `assignmentCount` shown to the
user; the trace component is instrumentation (see
`performAutoAssignmentLoop`). -/
def performAutoAssignment (st : AppState) (today : String)
    (freshId : Nat → Nat) (confirmed : Bool) :
    AppState × Nat × List (AppState × Nat × Nat) :=
  let unassignedEmployees := st.employees.filter (fun emp =>
    !(st.assignments.any (fun a => a.empleadoId == emp.id && a.activa)))
  if unassignedEmployees.isEmpty then (st, 0, [])
  else
    let availableSpaces := st.parkingSpaces.filter (fun space =>
      space.estado == STATUS_DISPONIBLE &&
        !(st.assignments.any (fun a => a.parqueaderoId == space.id && a.activa)))
    if availableSpaces.isEmpty then (st, 0, [])
    else if !confirmed then (st, 0, [])
    else
      performAutoAssignmentLoop today freshId (availableSpaces.map (·.id))
        unassignedEmployees st 0

/-! ### Validator conditions, as worded by the spec (§4.3) -/

/-- The employee id denotes a roster employee. -/
def employeeExists (st : AppState) (eid : Nat) : Prop :=
  ∃ e ∈ st.employees, e.id = eid

/-- The space id denotes a recorded space. -/
def spaceExists (st : AppState) (sid : Nat) : Prop :=
  ∃ s ∈ st.parkingSpaces, s.id = sid

/-- The employee already holds an active assignment. -/
def employeeHasActiveAssignment (st : AppState) (eid : Nat) : Prop :=
  ∃ a ∈ st.assignments, a.empleadoId = eid ∧ a.activa = true

/-- The space already has an active assignment. -/
def spaceHasActiveAssignment (st : AppState) (sid : Nat) : Prop :=
  ∃ a ∈ st.assignments, a.parqueaderoId = sid ∧ a.activa = true

/-- The employee's vehicle type equals the space's type (vacuously true when
either id is unknown; with duplicate-free ids this pins down the unique
pair). -/
def vehicleTypesMatch (st : AppState) (eid sid : Nat) : Prop :=
  ∀ e ∈ st.employees, e.id = eid →
    ∀ s ∈ st.parkingSpaces, s.id = sid → e.tipoVehiculo = s.tipo

end Parqueadero

namespace Parqueadero

/-! ### List helper lemmas for `updateFirst` and `find?` -/

theorem updateFirst_map {α β : Type} (p : α → Bool) (f : α → α) (g : α → β)
    (hg : ∀ x, g (f x) = g x) (l : List α) :
    (updateFirst p f l).map g = l.map g := by
  induction l with
  | nil => rfl
  | cons x xs ih =>
    by_cases hx : p x
    · simp [updateFirst, hx, hg]
    · simp [updateFirst, hx, ih]

theorem mem_updateFirst {α : Type} (p : α → Bool) (f : α → α) (l : List α)
    (y : α) (hy : y ∈ updateFirst p f l) :
    y ∈ l ∨ ∃ x ∈ l, p x = true ∧ y = f x := by
  induction l with
  | nil => simp [updateFirst] at hy
  | cons x xs ih =>
    by_cases hx : p x
    · simp only [updateFirst, hx, if_true, List.mem_cons] at hy
      rcases hy with rfl | hy
      · exact Or.inr ⟨x, List.mem_cons_self x xs, hx, rfl⟩
      · exact Or.inl (List.mem_cons_of_mem x hy)
    · simp only [updateFirst, hx, Bool.false_eq_true, if_false,
        List.mem_cons] at hy
      rcases hy with rfl | hy
      · exact Or.inl (List.mem_cons_self y xs)
      · rcases ih hy with h | ⟨x', hx', hpx', rfl⟩
        · exact Or.inl (List.mem_cons_of_mem x h)
        · exact Or.inr ⟨x', List.mem_cons_of_mem x hx', hpx', rfl⟩

theorem find?_updateFirst_of_ne {α : Type} (p q : α → Bool) (f : α → α)
    (l : List α) (h1 : ∀ x, p x = true → q x = false)
    (h2 : ∀ x, p x = true → q (f x) = false) :
    (updateFirst p f l).find? q = l.find? q := by
  induction l with
  | nil => rfl
  | cons x xs ih =>
    by_cases hx : p x
    · simp only [updateFirst, hx, if_true]
      rw [List.find?_cons_of_neg _ (by simp [h2 x hx]),
        List.find?_cons_of_neg _ (by simp [h1 x hx])]
    · simp only [updateFirst, hx, Bool.false_eq_true, if_false]
      by_cases hq : q x
      · rw [List.find?_cons_of_pos _ hq, List.find?_cons_of_pos _ hq]
      · rw [List.find?_cons_of_neg _ hq, List.find?_cons_of_neg _ hq]
        exact ih

theorem find?_updateFirst_self {α : Type} (p : α → Bool) (f : α → α)
    (l : List α) (h : ∀ x, p x = true → p (f x) = true) :
    (updateFirst p f l).find? p = (l.find? p).map f := by
  induction l with
  | nil => rfl
  | cons x xs ih =>
    by_cases hx : p x
    · simp only [updateFirst, hx, if_true]
      rw [List.find?_cons_of_pos _ (h x hx), List.find?_cons_of_pos _ hx]
      rfl
    · simp only [updateFirst, hx, Bool.false_eq_true, if_false]
      rw [List.find?_cons_of_neg _ hx, List.find?_cons_of_neg _ hx]
      exact ih

theorem nodup_find?_mem {α : Type} (f : α → Nat) {l : List α}
    (hnd : (l.map f).Nodup) {x : α} (hx : x ∈ l) :
    l.find? (fun y => f y == f x) = some x := by
  rcases hfind : l.find? (fun y => f y == f x) with _ | y
  · exfalso
    have := List.find?_eq_none.mp hfind x hx
    simp at this
  · have hy := List.mem_of_find?_eq_some hfind
    have hfy : f y = f x := by simpa using List.find?_some hfind
    have : y = x := List.inj_on_of_nodup_map hnd hy hx hfy
    rw [this]

/-! ### Characterisation of the validator -/

/-- The validator accepts exactly when none of the five rejection conditions
of §4.3 holds (stated over duplicate-free id columns, the data-model
invariant). -/
theorem validateAssignment_isValid_iff (st : AppState) (eid sid : Nat)
    (hE : (st.employees.map Employee.id).Nodup)
    (hS : (st.parkingSpaces.map ParkingSpace.id).Nodup) :
    (validateAssignment st eid sid).isValid = true ↔
      employeeExists st eid ∧ spaceExists st sid ∧
        ¬ employeeHasActiveAssignment st eid ∧
        ¬ spaceHasActiveAssignment st sid ∧
        vehicleTypesMatch st eid sid := by
  rcases hfe : st.employees.find? (fun emp => emp.id == eid) with _ | e₀
  · have hne : ¬ employeeExists st eid := by
      rintro ⟨e, he, rfl⟩
      have := List.find?_eq_none.mp hfe e he
      simp at this
    refine iff_of_false ?_ ?_
    · simp [validateAssignment, hfe]
    · rintro ⟨h1, -⟩
      exact hne h1
  · have he₀mem := List.mem_of_find?_eq_some hfe
    have he₀id : e₀.id = eid := by simpa using List.find?_some hfe
    rcases hfs : st.parkingSpaces.find? (fun space => space.id == sid) with _ | s₀
    · have hns : ¬ spaceExists st sid := by
        rintro ⟨s, hsm, rfl⟩
        have := List.find?_eq_none.mp hfs s hsm
        simp at this
      refine iff_of_false ?_ ?_
      · simp [validateAssignment, hfe, hfs]
      · rintro ⟨-, h2, -⟩
        exact hns h2
    · have hs₀mem := List.mem_of_find?_eq_some hfs
      have hs₀id : s₀.id = sid := by simpa using List.find?_some hfs
      by_cases hea : st.assignments.any (fun a => a.empleadoId == eid && a.activa)
      · have hex : employeeHasActiveAssignment st eid := by
          rcases List.any_eq_true.mp hea with ⟨a, ha, hcond⟩
          refine ⟨a, ha, ?_, ?_⟩ <;> simp_all
        refine iff_of_false ?_ ?_
        · unfold validateAssignment
          rw [hfe, hfs]
          simp [hea]
        · rintro ⟨-, -, hno, -⟩
          exact hno hex
      · have hnoe : ¬ employeeHasActiveAssignment st eid := by
          rintro ⟨a, ha, h1, h2⟩
          exact hea (List.any_eq_true.mpr ⟨a, ha, by simp [h1, h2]⟩)
        have hea' : st.assignments.any
            (fun a => a.empleadoId == eid && a.activa) = false := by
          simpa using hea
        by_cases hsa : st.assignments.any
            (fun a => a.parqueaderoId == sid && a.activa)
        · have hex : spaceHasActiveAssignment st sid := by
            rcases List.any_eq_true.mp hsa with ⟨a, ha, hcond⟩
            refine ⟨a, ha, ?_, ?_⟩ <;> simp_all
          refine iff_of_false ?_ ?_
          · unfold validateAssignment
            rw [hfe, hfs]
            simp [hea', hsa]
          · rintro ⟨-, -, -, hno, -⟩
            exact hno hex
        · have hnos : ¬ spaceHasActiveAssignment st sid := by
            rintro ⟨a, ha, h1, h2⟩
            exact hsa (List.any_eq_true.mpr ⟨a, ha, by simp [h1, h2]⟩)
          have hsa' : st.assignments.any
              (fun a => a.parqueaderoId == sid && a.activa) = false := by
            simpa using hsa
          by_cases ht : e₀.tipoVehiculo ≠ s₀.tipo
          · refine iff_of_false ?_ ?_
            · unfold validateAssignment
              rw [hfe, hfs]
              simp [hea', hsa', ht]
            · rintro ⟨-, -, -, -, hmatch⟩
              exact ht (hmatch e₀ he₀mem he₀id s₀ hs₀mem hs₀id)
          · push_neg at ht
            refine iff_of_true ?_
              ⟨⟨e₀, he₀mem, he₀id⟩, ⟨s₀, hs₀mem, hs₀id⟩, hnoe, hnos, ?_⟩
            · unfold validateAssignment
              rw [hfe, hfs]
              simp [hea', hsa', ht]
            · intro e hmem hid s hmem' hid'
              have he : e = e₀ :=
                List.inj_on_of_nodup_map hE hmem he₀mem (by rw [hid, he₀id])
              have hs : s = s₀ :=
                List.inj_on_of_nodup_map hS hmem' hs₀mem (by rw [hid', hs₀id])
              rw [he, hs]
              exact ht

/-- An employee with an active assignment is always rejected (no
duplicate-freeness needed). -/
theorem validateAssignment_rejects_active_employee (st : AppState)
    (eid sid : Nat) (h : employeeHasActiveAssignment st eid) :
    (validateAssignment st eid sid).isValid = false := by
  rcases h with ⟨a, ha, h1, h2⟩
  have hany : st.assignments.any
      (fun x => x.empleadoId == eid && x.activa) = true :=
    List.any_eq_true.mpr ⟨a, ha, by simp [h1, h2]⟩
  unfold validateAssignment
  rcases hfe : st.employees.find? (fun emp => emp.id == eid) with _ | e₀
  · simp [hfe]
  · rcases hfs : st.parkingSpaces.find? (fun space => space.id == sid) with _ | s₀
    · simp [hfe, hfs]
    · simp [hfe, hfs, hany]

end Parqueadero

namespace Parqueadero

/-! ### Facts about `createAssignment` -/

theorem createAssignment_employees (st : AppState) (fd : AssignmentFormData)
    (newId : Nat) (today : String) :
    (createAssignment st fd newId today).employees = st.employees := rfl

theorem createAssignment_assignments (st : AppState) (fd : AssignmentFormData)
    (newId : Nat) (today : String) :
    (createAssignment st fd newId today).assignments =
      st.assignments ++
        [{ id := newId
           empleadoId := fd.empleadoId
           parqueaderoId := fd.parqueaderoId
           fechaInicio := fd.fechaInicio
           fechaFin := fd.fechaFin
           activa := true
           fechaCreacion := today }] := rfl

theorem createAssignment_parkingSpaces (st : AppState)
    (fd : AssignmentFormData) (newId : Nat) (today : String) :
    (createAssignment st fd newId today).parkingSpaces =
      updateFirst (fun space => space.id == fd.parqueaderoId)
        (fun space =>
          { space with
            empleadoAsignado := some fd.empleadoId
            estado := STATUS_OCUPADO })
        st.parkingSpaces := rfl

theorem createAssignment_spaces_idtipo (st : AppState)
    (fd : AssignmentFormData) (newId : Nat) (today : String) :
    (createAssignment st fd newId today).parkingSpaces.map
        (fun s => (s.id, s.tipo)) =
      st.parkingSpaces.map (fun s => (s.id, s.tipo)) := by
  rw [createAssignment_parkingSpaces]
  exact updateFirst_map (fun space => space.id == fd.parqueaderoId)
    (fun space =>
      { space with
        empleadoAsignado := some fd.empleadoId
        estado := STATUS_OCUPADO })
    (fun s => (s.id, s.tipo)) (fun x => rfl) st.parkingSpaces

theorem find?_createAssignment_self (st : AppState) (fd : AssignmentFormData)
    (newId : Nat) (today : String) :
    (createAssignment st fd newId today).parkingSpaces.find?
        (fun space => space.id == fd.parqueaderoId) =
      (st.parkingSpaces.find? (fun space => space.id == fd.parqueaderoId)).map
        (fun space =>
          { space with
            empleadoAsignado := some fd.empleadoId
            estado := STATUS_OCUPADO }) := by
  rw [createAssignment_parkingSpaces]
  exact find?_updateFirst_self _ _ _ (fun x hx => hx)

theorem find?_createAssignment_self_of_eq (st : AppState)
    (fd : AssignmentFormData) (newId : Nat) (today : String) (sid : Nat)
    (h : fd.parqueaderoId = sid) :
    (createAssignment st fd newId today).parkingSpaces.find?
        (fun space => space.id == sid) =
      (st.parkingSpaces.find? (fun space => space.id == sid)).map
        (fun space =>
          { space with
            empleadoAsignado := some fd.empleadoId
            estado := STATUS_OCUPADO }) := by
  subst h
  exact find?_createAssignment_self st fd newId today

theorem find?_createAssignment_other (st : AppState) (fd : AssignmentFormData)
    (newId : Nat) (today : String) (sid : Nat)
    (hne : sid ≠ fd.parqueaderoId) :
    (createAssignment st fd newId today).parkingSpaces.find?
        (fun space => space.id == sid) =
      st.parkingSpaces.find? (fun space => space.id == sid) := by
  rw [createAssignment_parkingSpaces]
  refine find?_updateFirst_of_ne _ _ _ _ ?_ ?_
  · intro x hx
    have hx' : x.id = fd.parqueaderoId := by simpa using hx
    rw [beq_eq_false_iff_ne]
    intro hcc
    omega
  · intro x hx
    have hx' : x.id = fd.parqueaderoId := by simpa using hx
    rw [beq_eq_false_iff_ne]
    intro hcc
    have hcc' : x.id = sid := hcc
    omega

theorem loopSpaceOk_iff (st : AppState) (tipoV : String) (sid : Nat) :
    loopSpaceOk st tipoV sid = true ↔
      ∃ sp, st.parkingSpaces.find? (fun space => space.id == sid) = some sp ∧
        sp.tipo = tipoV ∧ sp.empleadoAsignado = none := by
  unfold loopSpaceOk
  rcases hfs : st.parkingSpaces.find? (fun space => space.id == sid) with _ | sp
  · simp [hfs]
  · simp [hfs, and_assoc]

/-- The validator accepts a pair whose employee is a roster member, whose
space is found with matching type and clear assignee mark, and for which both
`any` probes come up empty. -/
theorem validateAssignment_accepts (st : AppState) (e : Employee) (sid : Nat)
    (hE : (st.employees.map Employee.id).Nodup)
    (hmem : e ∈ st.employees) (sp : ParkingSpace)
    (hfs : st.parkingSpaces.find? (fun space => space.id == sid) = some sp)
    (htipo : sp.tipo = e.tipoVehiculo)
    (hnoe : st.assignments.any
      (fun a => a.empleadoId == e.id && a.activa) = false)
    (hnos : st.assignments.any
      (fun a => a.parqueaderoId == sid && a.activa) = false) :
    (validateAssignment st e.id sid).isValid = true := by
  have hfe : st.employees.find? (fun emp => emp.id == e.id) = some e :=
    nodup_find?_mem Employee.id hE hmem
  unfold validateAssignment
  rw [hfe, hfs]
  simp [hnoe, hnos, htipo]

/-- Invariant carried through `performAutoAssignmentLoop`: the employees are
untouched, space ids and types are untouched, the assignment list grows by
`added`, and every added assignment is active, belongs to an employee no
longer in the remaining list, and points at a space whose current record has
its assignee mark set. -/
def AutoLoopInv (st0 : AppState) (rem : List Employee) (st : AppState)
    (added : List Assignment) : Prop :=
  st.employees = st0.employees ∧
  st.parkingSpaces.map (fun s => (s.id, s.tipo)) =
    st0.parkingSpaces.map (fun s => (s.id, s.tipo)) ∧
  st.assignments = st0.assignments ++ added ∧
  ∀ a ∈ added, a.activa = true ∧ a.empleadoId ∉ rem.map Employee.id ∧
    ∀ sp, st.parkingSpaces.find? (fun s => s.id == a.parqueaderoId) = some sp →
      sp.empleadoAsignado ≠ none

/-- Every `createAssignment` call made by the auto-assignment loop is on a
pair that `validateAssignment` accepts in that call's pre-state. -/
theorem autoLoop_trace_valid (st0 : AppState) (today : String)
    (freshId : Nat → Nat) (availIds : List Nat)
    (hE : (st0.employees.map Employee.id).Nodup)
    (havail : ∀ sid ∈ availIds, ¬ spaceHasActiveAssignment st0 sid) :
    ∀ (rem : List Employee) (st : AppState) (added : List Assignment) (k : Nat),
      AutoLoopInv st0 rem st added →
      (∀ e ∈ rem, e ∈ st0.employees) →
      ((rem.map Employee.id).Nodup) →
      (∀ e ∈ rem, ¬ employeeHasActiveAssignment st0 e.id) →
      ∀ t ∈ (performAutoAssignmentLoop today freshId availIds rem st k).2.2,
        (validateAssignment t.1 t.2.1 t.2.2).isValid = true := by
  intro rem
  induction rem with
  | nil =>
    intro st added k _ _ _ _ t ht
    simp [performAutoAssignmentLoop] at ht
  | cons e rest ih =>
    intro st added k hinv hsub hnd hunass t ht
    obtain ⟨hI1, hI2, hI3, hI4⟩ := hinv
    have hsub' : ∀ e' ∈ rest, e' ∈ st0.employees :=
      fun e' he' => hsub e' (List.mem_cons_of_mem e he')
    have hnd' : (rest.map Employee.id).Nodup := by
      rw [List.map_cons] at hnd
      exact hnd.of_cons
    have hunass' : ∀ e' ∈ rest, ¬ employeeHasActiveAssignment st0 e'.id :=
      fun e' he' => hunass e' (List.mem_cons_of_mem e he')
    rcases hcompat : availIds.filter (loopSpaceOk st e.tipoVehiculo) with
      _ | ⟨sid, more⟩
    · simp only [performAutoAssignmentLoop, hcompat] at ht
      refine ih st added k ⟨hI1, hI2, hI3, fun a ha => ?_⟩ hsub' hnd' hunass' t ht
      refine ⟨(hI4 a ha).1, fun hmem => (hI4 a ha).2.1 ?_, (hI4 a ha).2.2⟩
      rw [List.map_cons]
      exact List.mem_cons_of_mem _ hmem
    · have hsid_mem_filter :
          sid ∈ availIds.filter (loopSpaceOk st e.tipoVehiculo) := by
        rw [hcompat]
        exact List.mem_cons_self _ _
      have hsidIn : sid ∈ availIds := (List.mem_filter.mp hsid_mem_filter).1
      have hok : loopSpaceOk st e.tipoVehiculo sid = true :=
        (List.mem_filter.mp hsid_mem_filter).2
      rcases (loopSpaceOk_iff st e.tipoVehiculo sid).mp hok with
        ⟨sp, hfs, htipo, hnone⟩
      simp only [performAutoAssignmentLoop, hcompat] at ht
      have ht' : t = (st, e.id, sid) ∨
          t ∈ (performAutoAssignmentLoop today freshId availIds rest
            (createAssignment st ⟨e.id, sid, today, none⟩ (freshId k) today)
            (k + 1)).2.2 := List.mem_cons.mp ht
      rcases ht' with rfl | htr
      · -- validator accepts at the pre-state of this creation
        have hnoe : st.assignments.any
            (fun a => a.empleadoId == e.id && a.activa) = false := by
          rw [List.any_eq_false]
          intro a ha
          rw [hI3] at ha
          intro hcond
          obtain ⟨h1, h2⟩ : a.empleadoId = e.id ∧ a.activa = true := by
            simpa using hcond
          rcases List.mem_append.mp ha with hold | hadded
          · exact hunass e (List.mem_cons_self e rest) ⟨a, hold, h1, h2⟩
          · refine (hI4 a hadded).2.1 ?_
            rw [List.map_cons, h1]
            exact List.mem_cons_self _ _
        have hnos : st.assignments.any
            (fun a => a.parqueaderoId == sid && a.activa) = false := by
          rw [List.any_eq_false]
          intro a ha
          rw [hI3] at ha
          intro hcond
          obtain ⟨h1, h2⟩ : a.parqueaderoId = sid ∧ a.activa = true := by
            simpa using hcond
          rcases List.mem_append.mp ha with hold | hadded
          · exact havail sid hsidIn ⟨a, hold, h1, h2⟩
          · refine (hI4 a hadded).2.2 sp ?_ hnone
            rw [h1]
            exact hfs
        exact validateAssignment_accepts st e sid (by rw [hI1]; exact hE)
          (by rw [hI1]; exact hsub e (List.mem_cons_self e rest)) sp hfs htipo
          hnoe hnos
      · -- re-establish the invariant after the creation
        have heidrest : e.id ∉ rest.map Employee.id := by
          rw [List.map_cons] at hnd
          exact (List.nodup_cons.mp hnd).1
        refine ih (createAssignment st ⟨e.id, sid, today, none⟩ (freshId k) today)
          (added ++ [(⟨freshId k, e.id, sid, today, none, true, today⟩ :
            Assignment)]) (k + 1)
          ⟨?_, ?_, ?_, ?_⟩ hsub' hnd' hunass' t htr
        · rw [createAssignment_employees]
          exact hI1
        · rw [createAssignment_spaces_idtipo]
          exact hI2
        · rw [createAssignment_assignments, hI3, List.append_assoc]
        · intro a ha
          rcases List.mem_append.mp ha with haold | hanew
          · refine ⟨(hI4 a haold).1, fun hmem => (hI4 a haold).2.1 ?_, ?_⟩
            · rw [List.map_cons]
              exact List.mem_cons_of_mem _ hmem
            · intro sp' hsp'
              by_cases hpid : a.parqueaderoId = sid
              · rw [hpid] at hsp'
                rw [find?_createAssignment_self_of_eq st _ _ _ sid rfl] at hsp'
                rw [hfs] at hsp'
                simp only [Option.map_some'] at hsp'
                injection hsp' with hsp'
                rw [← hsp']
                simp
              · rw [find?_createAssignment_other st _ _ _ a.parqueaderoId hpid]
                  at hsp'
                exact (hI4 a haold).2.2 sp' hsp'
          · have hanew' : a = (⟨freshId k, e.id, sid, today, none, true,
                today⟩ : Assignment) := by
              simpa using hanew
            subst hanew'
            refine ⟨rfl, heidrest, ?_⟩
            intro sp' hsp'
            rw [find?_createAssignment_self_of_eq st _ _ _ sid rfl] at hsp'
            rw [hfs] at hsp'
            simp only [Option.map_some'] at hsp'
            injection hsp' with hsp'
            rw [← hsp']
            simp

end Parqueadero

namespace Parqueadero

/-! ## Theorems for claims C1 and C4 -/

/-- C1: over duplicate-free id columns, (i) the validator accepts exactly when
none of the five rejection conditions holds — employee missing, space missing,
employee already actively assigned, space already actively assigned, vehicle
type mismatch; (ii) in the manual path a data-validation failure or a
validator rejection returns before `createAssignment`, leaving the state
untouched; (iii) in the automatic path every `createAssignment` call is made
on a pair that the validator accepts in that call's pre-state. -/
theorem C1_assignment_validator (st : AppState)
    (hE : (st.employees.map Employee.id).Nodup)
    (hS : (st.parkingSpaces.map ParkingSpace.id).Nodup) :
    (∀ eid sid, (validateAssignment st eid sid).isValid = true ↔
      (employeeExists st eid ∧ spaceExists st sid ∧
        ¬ employeeHasActiveAssignment st eid ∧
        ¬ spaceHasActiveAssignment st sid ∧
        vehicleTypesMatch st eid sid)) ∧
    (∀ formData newId today,
      (validateAssignmentData formData = false →
        handleFormSubmit st formData newId today = (st, .missingFields)) ∧
      ((validateAssignment st formData.empleadoId
          formData.parqueaderoId).isValid = false →
        (handleFormSubmit st formData newId today).1 = st ∧
        (handleFormSubmit st formData newId today).2 ≠ .created)) ∧
    (∀ today freshId,
      ∀ t ∈ (performAutoAssignment st today freshId true).2.2,
        (validateAssignment t.1 t.2.1 t.2.2).isValid = true) := by
  refine ⟨?_, ?_, ?_⟩
  · intro eid sid
    exact validateAssignment_isValid_iff st eid sid hE hS
  · intro formData newId today
    constructor
    · intro h
      simp [handleFormSubmit, h]
    · intro h
      by_cases hd : validateAssignmentData formData
      · constructor <;> simp [handleFormSubmit, hd, h]
      · have hd' : validateAssignmentData formData = false := by simpa using hd
        constructor <;> simp [handleFormSubmit, hd']
  · intro today freshId t ht
    by_cases h1 : (st.employees.filter (fun emp =>
        !(st.assignments.any (fun a => a.empleadoId == emp.id && a.activa)))).isEmpty
    · simp only [performAutoAssignment, h1, if_true] at ht
      simp at ht
    · have h1' : (st.employees.filter (fun emp =>
          !(st.assignments.any
            (fun a => a.empleadoId == emp.id && a.activa)))).isEmpty = false := by
        simpa using h1
      by_cases h2 : (st.parkingSpaces.filter (fun space =>
          space.estado == STATUS_DISPONIBLE &&
            !(st.assignments.any
              (fun a => a.parqueaderoId == space.id && a.activa)))).isEmpty
      · simp only [performAutoAssignment, h1', Bool.false_eq_true, if_false,
          h2, if_true] at ht
        simp at ht
      · have h2' : (st.parkingSpaces.filter (fun space =>
            space.estado == STATUS_DISPONIBLE &&
              !(st.assignments.any
                (fun a => a.parqueaderoId == space.id && a.activa)))).isEmpty
            = false := by
          simpa using h2
        simp only [performAutoAssignment, h1', h2', Bool.false_eq_true,
          if_false, Bool.not_true] at ht
        refine autoLoop_trace_valid st today freshId _ hE ?_ _ st [] 0
          ⟨rfl, rfl, (List.append_nil _).symm, by simp⟩ ?_ ?_ ?_ t ht
        · intro sid hsid
          rcases List.mem_map.mp hsid with ⟨sp, hsp, rfl⟩
          have hcond := (List.mem_filter.mp hsp).2
          obtain ⟨-, hno⟩ : (sp.estado == STATUS_DISPONIBLE) = true ∧
              (st.assignments.any
                (fun a => a.parqueaderoId == sp.id && a.activa)) = false := by
            simpa using hcond
          rintro ⟨a, ha, hpa, hact⟩
          have : st.assignments.any
              (fun a => a.parqueaderoId == sp.id && a.activa) = true :=
            List.any_eq_true.mpr ⟨a, ha, by simp [hpa, hact]⟩
          rw [this] at hno
          exact absurd hno (by simp)
        · intro e he
          exact List.mem_of_mem_filter he
        · exact List.Nodup.sublist
            (List.Sublist.map Employee.id (List.filter_sublist _)) hE
        · intro e he
          have hcond := (List.mem_filter.mp he).2
          have hno : st.assignments.any
              (fun a => a.empleadoId == e.id && a.activa) = false := by
            simpa using hcond
          rintro ⟨a, ha, hpa, hact⟩
          have : st.assignments.any
              (fun a => a.empleadoId == e.id && a.activa) = true :=
            List.any_eq_true.mpr ⟨a, ha, by simp [hpa, hact]⟩
          rw [this] at hno
          exact absurd hno (by simp)

/-- A free car space for concrete scenarios. -/
def spFree : ParkingSpace :=
  ⟨1, "S1-C001", "-1", "carro", "disponible", none, "2024-01-01"⟩

/-- State with one unassigned employee and one free compatible space. -/
def stC1 : AppState :=
  ⟨[empAna], [spFree], []⟩

/-- C1 witness: on the duplicate-free state `stC1`, the automatic path
creates exactly one assignment, for the pair (employee 1, space 1), and that
pair passes the validator in its pre-state. -/
theorem C1_assignment_validator_witness :
    ((stC1.employees.map Employee.id).Nodup ∧
      (stC1.parkingSpaces.map ParkingSpace.id).Nodup) ∧
    (stC1, 1, 1) ∈
      (performAutoAssignment stC1 "2024-06-01" (fun k => 100 + k) true).2.2 ∧
    (validateAssignment stC1 1 1).isValid = true := by
  refine ⟨⟨by decide, by decide⟩, by decide, ?_⟩
  exact (C1_assignment_validator stC1 (by decide) (by decide)).2.2
    "2024-06-01" (fun k => 100 + k) (stC1, 1, 1) (by decide)

/-- C4: a required-field failure or validator rejection in the manual path
returns the state unchanged with a typed outcome, and retrying an
already-fully-assigned (employee, space) pair fails validation and leaves the
assignment count unchanged. -/
theorem C4_failed_validation_no_mutation (st : AppState)
    (formData : AssignmentFormData) (newId : Nat) (today : String) :
    (validateAssignmentData formData = false →
      handleFormSubmit st formData newId today = (st, .missingFields)) ∧
    ((validateAssignment st formData.empleadoId
        formData.parqueaderoId).isValid = false →
      handleFormSubmit st formData newId today =
        (st, .rejected (validateAssignment st formData.empleadoId
          formData.parqueaderoId)) ∨
      handleFormSubmit st formData newId today = (st, .missingFields)) ∧
    ((∃ a ∈ st.assignments, a.empleadoId = formData.empleadoId ∧
        a.parqueaderoId = formData.parqueaderoId ∧ a.activa = true) →
      (handleFormSubmit st formData newId today).1 = st ∧
      (handleFormSubmit st formData newId today).1.assignments.length =
        st.assignments.length ∧
      (handleFormSubmit st formData newId today).2 ≠ .created) := by
  have hfirst : validateAssignmentData formData = false →
      handleFormSubmit st formData newId today = (st, .missingFields) := by
    intro h
    simp [handleFormSubmit, h]
  have hsecond : (validateAssignment st formData.empleadoId
      formData.parqueaderoId).isValid = false →
      handleFormSubmit st formData newId today =
        (st, .rejected (validateAssignment st formData.empleadoId
          formData.parqueaderoId)) ∨
      handleFormSubmit st formData newId today = (st, .missingFields) := by
    intro h
    by_cases hd : validateAssignmentData formData
    · left
      simp [handleFormSubmit, hd, h]
    · right
      have hd' : validateAssignmentData formData = false := by simpa using hd
      exact hfirst hd'
  refine ⟨hfirst, hsecond, ?_⟩
  rintro ⟨a, ha, h1, h2, h3⟩
  have hv := validateAssignment_rejects_active_employee st
    formData.empleadoId formData.parqueaderoId ⟨a, ha, h1, h3⟩
  rcases hsecond hv with hc | hc <;> rw [hc] <;> exact ⟨rfl, rfl, by simp⟩

/-- An active assignment pairing employee 1 with space 1. -/
def actAna : Assignment :=
  ⟨5, 1, 1, "2024-01-01", none, true, "2024-01-01"⟩

/-- State in which the pair (employee 1, space 1) is already fully assigned. -/
def stC4 : AppState :=
  ⟨[empAna], [spC001], [actAna]⟩

/-- C4 witness: retrying the already-assigned pair (1, 1) on `stC4` leaves the
state — in particular the assignment count — unchanged and does not create. -/
theorem C4_failed_validation_no_mutation_witness :
    (∃ a ∈ stC4.assignments, a.empleadoId = (1 : Nat) ∧
      a.parqueaderoId = (1 : Nat) ∧ a.activa = true) ∧
    (handleFormSubmit stC4 ⟨1, 1, "2024-06-01", none⟩ 77 "2024-06-01").1 =
      stC4 ∧
    (handleFormSubmit stC4 ⟨1, 1, "2024-06-01", none⟩ 77
        "2024-06-01").1.assignments.length = stC4.assignments.length ∧
    (handleFormSubmit stC4 ⟨1, 1, "2024-06-01", none⟩ 77 "2024-06-01").2 ≠
      .created := by
  refine ⟨by decide, ?_⟩
  exact (C4_failed_validation_no_mutation stC4 ⟨1, 1, "2024-06-01", none⟩ 77
    "2024-06-01").2.2 (by decide)

end Parqueadero

namespace Parqueadero

/-! ## Theorems for claim C5 -/

theorem mem_updateFirst_of_not {α : Type} (p : α → Bool) (f : α → α)
    {l : List α} {x : α} (hx : x ∈ l) (hp : p x = false) :
    x ∈ updateFirst p f l := by
  induction l with
  | nil => simp at hx
  | cons y ys ih =>
    by_cases hy : p y
    · simp only [updateFirst, hy, if_true]
      rcases List.mem_cons.mp hx with rfl | hmem
      · exact absurd hy (by simp [hp])
      · exact List.mem_cons_of_mem _ hmem
    · simp only [updateFirst, hy, Bool.false_eq_true, if_false]
      rcases List.mem_cons.mp hx with rfl | hmem
      · exact List.mem_cons_self _ _
      · exact List.mem_cons_of_mem _ (ih hmem)

/-- State whose only assignment (id 10) is already inactive, with end date
"2024-01-05", while its space still reads occupied. -/
def stC5 : AppState :=
  ⟨[empAna], [spC001], [⟨10, 1, 1, "2024-01-01", some "2024-01-05", false,
    "2024-01-01"⟩]⟩

/-- C5 (counterexample): the claim states that terminating an already
inactive assignment is a no-op (or an explicit not-found failure) leaving all
state unchanged.  On `stC5` the only assignment, id 10, is inactive, yet
`endAssignment` still rewrites its end date to today and flips the referenced
space to available with its assignee reference cleared — the state changes. -/
theorem C5_counterexample :
    (∃ a ∈ stC5.assignments, a.id = 10 ∧ a.activa = false) ∧
    endAssignment stC5 10 "2024-06-02" true ≠ stC5 := by
  decide

/-- C5 (amended): given an assignment id, if no assignment has that id (or
the confirmation dialog is declined) the state is unchanged; if an assignment
with that id is found — whether active or already inactive — it is marked
inactive with its end date set to today (there is no caller-supplied end
date), the referenced space is flipped to available with its
assigned-employee reference cleared, and everything else is untouched. -/
theorem C5_end_assignment (st : AppState) (assignmentId : Nat) (today : String)
    (hS : (st.parkingSpaces.map ParkingSpace.id).Nodup) :
    (st.assignments.find? (fun a => a.id == assignmentId) = none →
      ∀ confirmed, endAssignment st assignmentId today confirmed = st) ∧
    (endAssignment st assignmentId today false = st) ∧
    (∀ a, st.assignments.find? (fun a => a.id == assignmentId) = some a →
      (endAssignment st assignmentId today true).employees = st.employees ∧
      ((endAssignment st assignmentId today true).assignments.find?
          (fun x => x.id == assignmentId) =
        some { a with activa := false, fechaFin := some today }) ∧
      (∀ x ∈ st.assignments, x.id ≠ assignmentId →
        x ∈ (endAssignment st assignmentId today true).assignments) ∧
      (∀ sp ∈ (endAssignment st assignmentId today true).parkingSpaces,
        sp.id = a.parqueaderoId →
          sp.estado = STATUS_DISPONIBLE ∧ sp.empleadoAsignado = none) ∧
      (∀ sp ∈ st.parkingSpaces, sp.id ≠ a.parqueaderoId →
        sp ∈ (endAssignment st assignmentId today true).parkingSpaces)) := by
  refine ⟨?_, ?_, ?_⟩
  · intro hfind confirmed
    simp [endAssignment, hfind]
  · rcases hf : st.assignments.find? (fun a => a.id == assignmentId) with _ | a
    · simp [endAssignment, hf]
    · simp [endAssignment, hf]
  · intro a hfind
    have hresult :
        endAssignment st assignmentId today true =
          { st with
            assignments :=
              updateFirst (fun x => x.id == assignmentId)
                (fun x => { x with activa := false, fechaFin := some today })
                st.assignments
            parkingSpaces :=
              updateFirst (fun space => space.id == a.parqueaderoId)
                (fun space =>
                  { space with
                    empleadoAsignado := none
                    estado := STATUS_DISPONIBLE })
                st.parkingSpaces } := by
      simp [endAssignment, hfind]
    refine ⟨by rw [hresult], ?_, ?_, ?_, ?_⟩
    · rw [hresult]
      show (updateFirst (fun x => x.id == assignmentId)
          (fun x => { x with activa := false, fechaFin := some today })
          st.assignments).find? (fun x => x.id == assignmentId) = _
      rw [find?_updateFirst_self (fun x => x.id == assignmentId)
        (fun x => { x with activa := false, fechaFin := some today })
        st.assignments (fun x hx => hx), hfind]
      rfl
    · intro x hx hne
      rw [hresult]
      refine mem_updateFirst_of_not _ _ hx ?_
      simpa using hne
    · intro sp hsp hid
      rw [hresult] at hsp
      have hids : (updateFirst (fun space => space.id == a.parqueaderoId)
          (fun space =>
            { space with
              empleadoAsignado := none
              estado := STATUS_DISPONIBLE })
          st.parkingSpaces).map ParkingSpace.id =
            st.parkingSpaces.map ParkingSpace.id :=
        updateFirst_map (fun space => space.id == a.parqueaderoId)
          (fun space =>
            { space with
              empleadoAsignado := none
              estado := STATUS_DISPONIBLE })
          ParkingSpace.id (fun x => rfl) st.parkingSpaces
      have hnd' : ((updateFirst (fun space => space.id == a.parqueaderoId)
          (fun space =>
            { space with
              empleadoAsignado := none
              estado := STATUS_DISPONIBLE })
          st.parkingSpaces).map ParkingSpace.id).Nodup := by
        rw [hids]
        exact hS
      have hfound := nodup_find?_mem ParkingSpace.id hnd' hsp
      rw [hid] at hfound
      rw [find?_updateFirst_self (fun space => space.id == a.parqueaderoId)
        (fun space =>
          { space with
            empleadoAsignado := none
            estado := STATUS_DISPONIBLE })
        st.parkingSpaces (fun x hx => hx)] at hfound
      rcases hf0 : st.parkingSpaces.find?
          (fun space => space.id == a.parqueaderoId) with _ | sp0
      · rw [hf0] at hfound
        simp at hfound
      · rw [hf0] at hfound
        simp only [Option.map_some'] at hfound
        injection hfound with hfound
        rw [← hfound]
        exact ⟨rfl, rfl⟩
    · intro sp hsp hne
      rw [hresult]
      refine mem_updateFirst_of_not _ _ hsp ?_
      simpa using hne

/-- C5 witness: ending the active assignment id 5 on `stC4` (confirmed) marks
it inactive with end date today. -/
theorem C5_end_assignment_witness :
    ((stC4.parkingSpaces.map ParkingSpace.id).Nodup ∧
      stC4.assignments.find? (fun a => a.id == 5) = some actAna) ∧
    (endAssignment stC4 5 "2024-06-02" true).assignments.find?
        (fun x => x.id == 5) =
      some { actAna with activa := false, fechaFin := some "2024-06-02" } := by
  refine ⟨⟨by decide, by decide⟩, ?_⟩
  exact ((C5_end_assignment stC4 5 "2024-06-02"
    (by decide)).2.2 actAna (by decide)).2.1

end Parqueadero

namespace Parqueadero

/-! ## Theorems for claim C6 -/

/-- Modelled from the spec (§4.6): for each unassigned employee, in iteration
order, take the first compatible available space (matching vehicle type) not
yet claimed by an earlier iteration of this same pass, else skip; the result
is the list of (employee id, space id) pairs created, in order. -/
def specAutoGo (avail : List ParkingSpace) :
    List Employee → List Nat → List (Nat × Nat)
  | [], _ => []
  | e :: rest, claimed =>
    match (avail.filter (fun s => s.tipo == e.tipoVehiculo &&
        !(claimed.contains s.id))).head? with
    | none => specAutoGo avail rest claimed
    | some s => (e.id, s.id) :: specAutoGo avail rest (s.id :: claimed)

/-- Modelled from the spec (§4.6): the greedy matching over the employees
with no active assignment and the spaces that are available with no active
assignment, starting with nothing claimed. -/
def autoAssignmentSpec (st : AppState) : List (Nat × Nat) :=
  specAutoGo
    (st.parkingSpaces.filter (fun space =>
      space.estado == STATUS_DISPONIBLE &&
        !(st.assignments.any
          (fun a => a.parqueaderoId == space.id && a.activa))))
    (st.employees.filter (fun emp =>
      !(st.assignments.any (fun a => a.empleadoId == emp.id && a.activa))))
    []

/-- Folding the manual-assignment creation (§4.4) over a pair list. -/
def applyCreations (today : String) (freshId : Nat → Nat) :
    AppState → Nat → List (Nat × Nat) → AppState
  | st, _, [] => st
  | st, k, (eid, sid) :: rest =>
    applyCreations today freshId
      (createAssignment st ⟨eid, sid, today, none⟩ (freshId k) today)
      (k + 1) rest

theorem specAutoGo_cons (avail : List ParkingSpace) (e : Employee)
    (rest : List Employee) (claimed : List Nat) :
    specAutoGo avail (e :: rest) claimed =
      match (avail.filter (fun s => s.tipo == e.tipoVehiculo &&
          !(claimed.contains s.id))).head? with
      | none => specAutoGo avail rest claimed
      | some s => (e.id, s.id) :: specAutoGo avail rest (s.id :: claimed) :=
  rfl

theorem specAutoGo_nil_avail (rem : List Employee) (claimed : List Nat) :
    specAutoGo [] rem claimed = [] := by
  induction rem generalizing claimed with
  | nil => rfl
  | cons e rest ih => simp [specAutoGo, ih]

/-- Simulation relation between the loop's mutable state and the spec's
claimed-id set, over the captured available-space records. -/
def SpecSimInv (avail : List ParkingSpace) (claimed : List Nat)
    (st : AppState) : Prop :=
  ∀ sp0 ∈ avail, ∃ sp,
    st.parkingSpaces.find? (fun space => space.id == sp0.id) = some sp ∧
    sp.tipo = sp0.tipo ∧
    (sp.empleadoAsignado = none ↔ sp0.id ∉ claimed)

theorem loop_filter_eq_spec_filter (st : AppState) (avail : List ParkingSpace)
    (claimed : List Nat) (hinv : SpecSimInv avail claimed st) (tipoV : String) :
    (avail.map (fun s => s.id)).filter (loopSpaceOk st tipoV) =
      (avail.filter (fun s => s.tipo == tipoV &&
        !(claimed.contains s.id))).map (fun s => s.id) := by
  rw [List.filter_map]
  congr 1
  refine List.filter_congr ?_
  intro s hs
  rcases hinv s hs with ⟨sp, hfind, htipo, hiff⟩
  show loopSpaceOk st tipoV s.id = _
  unfold loopSpaceOk
  rw [hfind]
  show (sp.tipo == tipoV && sp.empleadoAsignado == none) = _
  rw [htipo]
  rcases hbc : claimed.contains s.id with _ | _
  · have hmem : s.id ∉ claimed := by
      simpa using hbc
    have : sp.empleadoAsignado = none := hiff.mpr hmem
    simp [this]
  · have hmem : s.id ∈ claimed := by
      simpa using hbc
    have : sp.empleadoAsignado ≠ none := fun hn => (hiff.mp hn) hmem
    rcases hsome : sp.empleadoAsignado with _ | v
    · exact absurd hsome this
    · simp [hsome]

/-- The loop simulates the spec's greedy pass: same created pairs, same
count, and the final state is the fold of `createAssignment` over them. -/
theorem loop_spec_equiv (today : String) (freshId : Nat → Nat)
    (avail : List ParkingSpace) :
    ∀ (rem : List Employee) (st : AppState) (claimed : List Nat) (k : Nat),
      SpecSimInv avail claimed st →
      ((performAutoAssignmentLoop today freshId (avail.map (fun s => s.id))
          rem st k).2.2.map (fun t => (t.2.1, t.2.2)) =
        specAutoGo avail rem claimed) ∧
      ((performAutoAssignmentLoop today freshId (avail.map (fun s => s.id))
          rem st k).2.1 = (specAutoGo avail rem claimed).length) ∧
      ((performAutoAssignmentLoop today freshId (avail.map (fun s => s.id))
          rem st k).1 =
        applyCreations today freshId st k (specAutoGo avail rem claimed)) := by
  intro rem
  induction rem with
  | nil =>
    intro st claimed k _
    exact ⟨rfl, rfl, rfl⟩
  | cons e rest ih =>
    intro st claimed k hinv
    have hfilt := loop_filter_eq_spec_filter st avail claimed hinv e.tipoVehiculo
    rcases hfq : avail.filter (fun s => s.tipo == e.tipoVehiculo &&
        !(claimed.contains s.id)) with _ | ⟨s₁, qtail⟩
    · rw [hfq] at hfilt
      simp only [List.map_nil] at hfilt
      have hspec : specAutoGo avail (e :: rest) claimed =
          specAutoGo avail rest claimed := by
        rw [specAutoGo_cons, hfq]
        rfl
      rw [hspec]
      have hloop : performAutoAssignmentLoop today freshId
          (avail.map (fun s => s.id)) (e :: rest) st k =
            performAutoAssignmentLoop today freshId
              (avail.map (fun s => s.id)) rest st k := by
        simp only [performAutoAssignmentLoop, hfilt]
      rw [hloop]
      exact ih st claimed k hinv
    · rw [hfq] at hfilt
      simp only [List.map_cons] at hfilt
      have hspec : specAutoGo avail (e :: rest) claimed =
          (e.id, s₁.id) :: specAutoGo avail rest (s₁.id :: claimed) := by
        rw [specAutoGo_cons, hfq]
        rfl
      have hinv' : SpecSimInv avail (s₁.id :: claimed)
          (createAssignment st ⟨e.id, s₁.id, today, none⟩ (freshId k) today) := by
        intro sp0 hsp0
        rcases hinv sp0 hsp0 with ⟨sp, hfind, htipo, hiff⟩
        by_cases hpid : sp0.id = s₁.id
        · refine ⟨({ sp with
              empleadoAsignado := some e.id
              estado := STATUS_OCUPADO } : ParkingSpace), ?_, htipo, ?_⟩
          · rw [find?_createAssignment_self_of_eq st _ _ _ sp0.id
              (by rw [hpid]), hfind]
            rfl
          · constructor
            · intro hn
              exact absurd hn (by simp)
            · intro hnot
              exact absurd (by rw [hpid]; exact List.mem_cons_self _ _) hnot
        · refine ⟨sp, ?_, htipo, ?_⟩
          · rw [find?_createAssignment_other st _ _ _ sp0.id
              (by simpa using hpid), hfind]
          · rw [hiff]
            constructor
            · intro hnot hin
              rcases List.mem_cons.mp hin with h | h
              · exact hpid h
              · exact hnot h
            · intro hnot hin
              exact hnot (List.mem_cons_of_mem _ hin)
      have hloop : performAutoAssignmentLoop today freshId
          (avail.map (fun s => s.id)) (e :: rest) st k =
            ((performAutoAssignmentLoop today freshId
                (avail.map (fun s => s.id)) rest
                (createAssignment st ⟨e.id, s₁.id, today, none⟩ (freshId k) today)
                (k + 1)).1,
              (performAutoAssignmentLoop today freshId
                (avail.map (fun s => s.id)) rest
                (createAssignment st ⟨e.id, s₁.id, today, none⟩ (freshId k) today)
                (k + 1)).2.1 + 1,
              (st, e.id, s₁.id) ::
                (performAutoAssignmentLoop today freshId
                  (avail.map (fun s => s.id)) rest
                  (createAssignment st ⟨e.id, s₁.id, today, none⟩ (freshId k)
                    today)
                  (k + 1)).2.2) := by
        simp only [performAutoAssignmentLoop, hfilt]
      rcases ih
        (createAssignment st ⟨e.id, s₁.id, today, none⟩ (freshId k) today)
        (s₁.id :: claimed) (k + 1) hinv' with ⟨ih1, ih2, ih3⟩
      refine ⟨?_, ?_, ?_⟩
      · rw [hloop, hspec]
        simp only [List.map_cons]
        rw [ih1]
      · rw [hloop, hspec]
        simp only [List.length_cons]
        rw [ih2]
      · rw [hloop, hspec]
        show _ = applyCreations today freshId
          (createAssignment st ⟨e.id, s₁.id, today, none⟩ (freshId k) today)
          (k + 1) (specAutoGo avail rest (s₁.id :: claimed))
        exact ih3

end Parqueadero

namespace Parqueadero

/-- C6: on a state whose space ids are duplicate-free and whose available
spaces carry no stale assignee mark (the denormalised field agrees with the
assignment list), the automatic bulk assignment realises exactly the greedy
matching worded by the spec: it creates, in employee-list order, the pair of
each unassigned employee with the first available space of matching vehicle
type not claimed earlier in the same pass; the reported count is the number
of pairs, and the final state is the fold of the manual-assignment creation
over those pairs. -/
theorem C6_auto_assignment_greedy (st : AppState) (today : String)
    (freshId : Nat → Nat)
    (hS : (st.parkingSpaces.map ParkingSpace.id).Nodup)
    (hcons : ∀ sp ∈ st.parkingSpaces, sp.estado = STATUS_DISPONIBLE →
      ¬ spaceHasActiveAssignment st sp.id → sp.empleadoAsignado = none) :
    ((performAutoAssignment st today freshId true).2.2.map
        (fun t => (t.2.1, t.2.2)) = autoAssignmentSpec st) ∧
    ((performAutoAssignment st today freshId true).2.1 =
      (autoAssignmentSpec st).length) ∧
    ((performAutoAssignment st today freshId true).1 =
      applyCreations today freshId st 0 (autoAssignmentSpec st)) := by
  by_cases h1 : (st.employees.filter (fun emp =>
      !(st.assignments.any (fun a => a.empleadoId == emp.id && a.activa)))).isEmpty
  · have h1' : st.employees.filter (fun emp =>
        !(st.assignments.any (fun a => a.empleadoId == emp.id && a.activa)))
        = [] := by
      simpa [List.isEmpty_iff] using h1
    have hres : performAutoAssignment st today freshId true = (st, 0, []) := by
      simp only [performAutoAssignment, h1, if_true]
    have hspec : autoAssignmentSpec st = [] := by
      unfold autoAssignmentSpec
      rw [h1']
      rfl
    rw [hres, hspec]
    exact ⟨rfl, rfl, rfl⟩
  · have h1' : (st.employees.filter (fun emp =>
        !(st.assignments.any
          (fun a => a.empleadoId == emp.id && a.activa)))).isEmpty = false := by
      simpa using h1
    by_cases h2 : (st.parkingSpaces.filter (fun space =>
        space.estado == STATUS_DISPONIBLE &&
          !(st.assignments.any
            (fun a => a.parqueaderoId == space.id && a.activa)))).isEmpty
    · have h2' : st.parkingSpaces.filter (fun space =>
          space.estado == STATUS_DISPONIBLE &&
            !(st.assignments.any
              (fun a => a.parqueaderoId == space.id && a.activa))) = [] := by
        simpa [List.isEmpty_iff] using h2
      have hres : performAutoAssignment st today freshId true = (st, 0, []) := by
        simp only [performAutoAssignment, h1', Bool.false_eq_true, if_false,
          h2, if_true]
      have hspec : autoAssignmentSpec st = [] := by
        unfold autoAssignmentSpec
        rw [h2', specAutoGo_nil_avail]
      rw [hres, hspec]
      exact ⟨rfl, rfl, rfl⟩
    · have h2' : (st.parkingSpaces.filter (fun space =>
          space.estado == STATUS_DISPONIBLE &&
            !(st.assignments.any
              (fun a => a.parqueaderoId == space.id && a.activa)))).isEmpty
          = false := by
        simpa using h2
      have hres : performAutoAssignment st today freshId true =
          performAutoAssignmentLoop today freshId
            ((st.parkingSpaces.filter (fun space =>
              space.estado == STATUS_DISPONIBLE &&
                !(st.assignments.any
                  (fun a => a.parqueaderoId == space.id && a.activa)))).map
              (fun s => s.id))
            (st.employees.filter (fun emp =>
              !(st.assignments.any
                (fun a => a.empleadoId == emp.id && a.activa))))
            st 0 := by
        simp only [performAutoAssignment, h1', h2', Bool.false_eq_true,
          if_false, Bool.not_true]
      have hinv : SpecSimInv
          (st.parkingSpaces.filter (fun space =>
            space.estado == STATUS_DISPONIBLE &&
              !(st.assignments.any
                (fun a => a.parqueaderoId == space.id && a.activa)))) [] st := by
        intro sp0 hsp0
        have hmem : sp0 ∈ st.parkingSpaces := List.mem_of_mem_filter hsp0
        have hcond := (List.mem_filter.mp hsp0).2
        obtain ⟨hdisp, hno⟩ : (sp0.estado == STATUS_DISPONIBLE) = true ∧
            (st.assignments.any
              (fun a => a.parqueaderoId == sp0.id && a.activa)) = false := by
          simpa using hcond
        have hnoact : ¬ spaceHasActiveAssignment st sp0.id := by
          rintro ⟨a, ha, hpa, hact⟩
          have : st.assignments.any
              (fun a => a.parqueaderoId == sp0.id && a.activa) = true :=
            List.any_eq_true.mpr ⟨a, ha, by simp [hpa, hact]⟩
          rw [this] at hno
          exact absurd hno (by simp)
        have hnone : sp0.empleadoAsignado = none :=
          hcons sp0 hmem (by simpa using hdisp) hnoact
        refine ⟨sp0, nodup_find?_mem ParkingSpace.id hS hmem, rfl, ?_⟩
        simp [hnone]
      rw [hres]
      exact loop_spec_equiv today freshId _ _ st [] 0 hinv

/-- C6 witness: on `stC1`, the greedy spec pairs employee 1 with space 1, and
the automatic assignment creates exactly that pair with count 1. -/
theorem C6_auto_assignment_greedy_witness :
    ((stC1.parkingSpaces.map ParkingSpace.id).Nodup ∧
      (∀ sp ∈ stC1.parkingSpaces, sp.estado = STATUS_DISPONIBLE →
        ¬ spaceHasActiveAssignment stC1 sp.id →
          sp.empleadoAsignado = none)) ∧
    autoAssignmentSpec stC1 = [(1, 1)] ∧
    (performAutoAssignment stC1 "2024-06-01" (fun k => 100 + k) true).2.2.map
        (fun t => (t.2.1, t.2.2)) = autoAssignmentSpec stC1 ∧
    (performAutoAssignment stC1 "2024-06-01" (fun k => 100 + k) true).2.1 =
      (autoAssignmentSpec stC1).length := by
  have hcons : ∀ sp ∈ stC1.parkingSpaces, sp.estado = STATUS_DISPONIBLE →
      ¬ spaceHasActiveAssignment stC1 sp.id → sp.empleadoAsignado = none := by
    intro sp hsp hdisp hno
    have hsp' : sp ∈ [spFree] := hsp
    have hone : sp = spFree := by simpa using hsp'
    rw [hone]
    rfl
  refine ⟨⟨by decide, hcons⟩, by decide, ?_, ?_⟩
  · exact (C6_auto_assignment_greedy stC1 "2024-06-01" (fun k => 100 + k)
      (by decide) hcons).1
  · exact (C6_auto_assignment_greedy stC1 "2024-06-01" (fun k => 100 + k)
      (by decide) hcons).2.1

end Parqueadero

namespace Parqueadero

/-! ## Parking module (`parking.js`) and bulk generation -/

/-- Embedding of `VEHICLE_TYPES.CARRO` -/
def TIPO_CARRO : String := "carro"

/-- Embedding of `VEHICLE_TYPES.MOTO` -/
def TIPO_MOTO : String := "moto"

/-- Embedding of `VEHICLE_TYPES.BICICLETA` -/
def TIPO_BICICLETA : String := "bicicleta"

/-- Embedding of `BASEMENT_LEVELS.MINUS_ONE` -/
def SOTANO_MINUS_ONE : String := "-1"

/-- Embedding of `BASEMENT_LEVELS.MINUS_THREE` -/
def SOTANO_MINUS_THREE : String := "-3"

/-- Embedding of `String(numero).padStart(3, "0")` -/
def padStart3 (n : Nat) : String :=
  let s := toString n
  if 3 ≤ s.length then s
  else String.mk (List.replicate (3 - s.length) '0') ++ s

/-- The `typeCode` table of `formatParkingNumber`; an unknown type renders as
the string "undefined", as JS template interpolation of `undefined` would. -/
def typeCodeOf (tipo : String) : String :=
  if tipo = TIPO_CARRO then "C"
  else if tipo = TIPO_MOTO then "M"
  else if tipo = TIPO_BICICLETA then "B"
  else "undefined"

/-- Decimal digit accumulation for `parseIntDigits`. -/
def parseNatDigits : List Char → Nat → Option Nat
  | [], acc => some acc
  | c :: cs, acc =>
    if c.isDigit then parseNatDigits cs (acc * 10 + (c.toNat - 48)) else none

/-- JS `parseInt` on a plain decimal string with optional leading minus sign
(the only shapes the basement levels take). -/
def parseIntString (s : String) : Option Int :=
  match s.data with
  | [] => none
  | '-' :: c :: cs =>
    if c.isDigit then
      (parseNatDigits cs (c.toNat - 48)).map (fun n => -(n : Int))
    else none
  | c :: cs =>
    if c.isDigit then (parseNatDigits cs (c.toNat - 48)).map Int.ofNat
    else none

/-- Embedding of `Math.abs(parseInt(sotano))` for the basement strings. -/
def sotanoAbs (sotano : String) : Nat :=
  ((parseIntString sotano).getD 0).natAbs

/-- Embedding of `formatParkingNumber` (`helpers.js` lines 228–236):
`S<abs basement>-<type code><sequence zero-padded to 3>`. -/
def formatParkingNumber (sotano tipo : String) (numero : Nat) : String :=
  "S" ++ toString (sotanoAbs sotano) ++ "-" ++ typeCodeOf tipo ++
    padStart3 numero

/-- Embedding of `getNextSequentialNumber` (`parking.js` lines 262–268): one more than the
count of stored spaces in the same (type, basement) bucket. -/
def getNextSequentialNumber (parkingSpaces : List ParkingSpace)
    (tipo sotano : String) : Nat :=
  (parkingSpaces.filter
    (fun space => space.tipo == tipo && space.sotano == sotano)).length + 1

/-- Embedding of `calculateDistribution` (`parking.js` lines 241–254): returns the fixed
distribution (120, 120, 45, 15); the `totalSpaces` parameter is unused, as in
the source. -/
def calculateDistribution (totalSpaces : Nat) : Nat × Nat × Nat × Nat :=
  (120, 120, 45, 15)

/-- Embedding of `generateParkingSpaces` (`parking.js` lines 199–234): builds the four
buckets of the fixed distribution; each new space's display number is
computed by `getNextSequentialNumber` against `this.parkingSpaces`, which the
loop has not yet extended (the new spaces are pushed only after the loop);
ids are `generateId() + idCounter++`, modelled as `baseId` plus the running
counter. -/
def generateParkingSpaces (parkingSpaces : List ParkingSpace)
    (totalSpaces : Nat) (baseId : Nat) (today : String) : List ParkingSpace :=
  let distribution := calculateDistribution totalSpaces
  let spaceTypes : List (String × String × Nat) :=
    [(TIPO_CARRO, SOTANO_MINUS_ONE, distribution.1),
      (TIPO_CARRO, SOTANO_MINUS_THREE, distribution.2.1),
      (TIPO_MOTO, SOTANO_MINUS_ONE, distribution.2.2.1),
      (TIPO_BICICLETA, SOTANO_MINUS_ONE, distribution.2.2.2)]
  let newSpaces := spaceTypes.foldl
    (fun acc bucket =>
      acc ++ (List.range bucket.2.2).map (fun i =>
        { id := baseId + acc.length + i
          numero := formatParkingNumber bucket.2.1 bucket.1
            (getNextSequentialNumber parkingSpaces bucket.1 bucket.2.1)
          sotano := bucket.2.1
          tipo := bucket.1
          estado := STATUS_DISPONIBLE
          empleadoAsignado := none
          fechaCreacion := today }))
    []
  parkingSpaces ++ newSpaces

/-- Embedding of `handleBulkGenerate` (`parking.js` lines 136–160): refuse at or above the
300-space maximum, ask for confirmation, then generate with the remaining
headroom as argument. -/
def handleBulkGenerate (parkingSpaces : List ParkingSpace) (confirmed : Bool)
    (baseId : Nat) (today : String) : List ParkingSpace :=
  if MAX_PARKING_SPACES ≤ parkingSpaces.length then parkingSpaces
  else if !confirmed then parkingSpaces
  else
    generateParkingSpaces parkingSpaces
      (MAX_PARKING_SPACES - parkingSpaces.length) baseId today

end Parqueadero

namespace Parqueadero

/-! ## Theorems for claims C7 and C8 -/

set_option maxRecDepth 10000 in
/-- C7: evaluation of bulk generation.  From the empty state it creates
exactly 120 car basement -1, 120 car basement -3, 45 moto basement -1 and 15
bicycle basement -1 spaces (300 total), and invoking it again at 300 creates
nothing — but with one space
already present it creates 300 more, for a total of 301, because
`calculateDistribution` ignores the remaining-headroom argument that
`handleBulkGenerate` passes it: the 300-space maximum is exceeded, contrary
to the claim (and to the UI message announcing the remaining count). -/
theorem C7_bulk_generation_overflows_max :
    (handleBulkGenerate [] true 0 "2024-01-01").length = 300 ∧
    ((handleBulkGenerate [] true 0 "2024-01-01").filter
      (fun s => s.tipo == TIPO_CARRO && s.sotano == SOTANO_MINUS_ONE)).length
      = 120 ∧
    ((handleBulkGenerate [] true 0 "2024-01-01").filter
      (fun s => s.tipo == TIPO_CARRO && s.sotano == SOTANO_MINUS_THREE)).length
      = 120 ∧
    ((handleBulkGenerate [] true 0 "2024-01-01").filter
      (fun s => s.tipo == TIPO_MOTO && s.sotano == SOTANO_MINUS_ONE)).length
      = 45 ∧
    ((handleBulkGenerate [] true 0 "2024-01-01").filter
      (fun s => s.tipo == TIPO_BICICLETA && s.sotano == SOTANO_MINUS_ONE)).length
      = 15 ∧
    handleBulkGenerate (handleBulkGenerate [] true 0 "2024-01-01") true 1000
        "2024-02-02" =
      handleBulkGenerate [] true 0 "2024-01-01" ∧
    (handleBulkGenerate [spFree] true 0 "2024-01-01").length = 301 := by
  refine ⟨rfl, rfl, rfl, rfl, rfl, rfl, rfl⟩

set_option maxRecDepth 10000 in
/-- C8: evaluation of the numbering scheme.  `getNextSequentialNumber` is
computed against the stored list, which is extended only after the generation
loop, so every space of a bucket generated in the same pass receives the same
sequence number: from the empty state the first two generated car basement -1
spaces are both numbered "S1-C001", and the generated display numbers are not
duplicate-free, contrary to the claim that the sequence increases by one per
space and all numbers are unique. -/
theorem C8_bulk_numbering_not_unique :
    ((generateParkingSpaces [] 300 0 "2024-01-01").map
      (fun s => s.numero)).take 2 = ["S1-C001", "S1-C001"] ∧
    formatParkingNumber SOTANO_MINUS_ONE TIPO_CARRO 1 = "S1-C001" ∧
    ¬ ((generateParkingSpaces [] 300 0 "2024-01-01").map
      (fun s => s.numero)).Nodup := by
  refine ⟨rfl, rfl, ?_⟩
  intro hnd
  have htake : ((generateParkingSpaces [] 300 0 "2024-01-01").map
      (fun s => s.numero)).take 2 = ["S1-C001", "S1-C001"] := rfl
  have hnd2 := List.Nodup.sublist (List.take_sublist 2 _) hnd
  rw [htake] at hnd2
  simp at hnd2

end Parqueadero

namespace Parqueadero

/-! ## Deletion cascades (`assignments.js`, `parking.js`, claim C9) -/

/-- The custom events exchanged between the modules. -/
inductive ModuleEvent where
  | employeeAdded (employee : Employee)
  | employeeDeleted (id : Nat)
  | parkingSpaceAdded (space : ParkingSpace)
  | parkingSpaceDeleted (id : Nat)
  deriving Repr, DecidableEq

/-- Embedding of `onEmployeeDeleted` (`assignments.js` lines 509–521): drop the employee,
then end every active assignment of that employee (each `endAssignment` call
includes its own confirm dialog, represented by `confirmed`). -/
def onEmployeeDeleted (st : AppState) (dataId : Nat) (today : String)
    (confirmed : Bool) : AppState :=
  let st1 := { st with
    employees := st.employees.filter (fun emp => !(emp.id == dataId)) }
  let employeeAssignments := st1.assignments.filter
    (fun a => a.empleadoId == dataId && a.activa)
  employeeAssignments.foldl
    (fun acc assignment => endAssignment acc assignment.id today confirmed) st1

/-- The `AssignmentManager` reaction to each module event, exactly as wired
by `bindEvents` (`assignments.js` lines 31–51): listeners exist for
`employeeAdded`, `employeeDeleted` and `parkingSpaceAdded`; no listener is
registered for `parkingSpaceDeleted`, so that event leaves the assignment
store untouched. -/
def assignmentManagerOnEvent (st : AppState) (ev : ModuleEvent)
    (today : String) (confirmed : Bool) : AppState :=
  match ev with
  | .employeeAdded employee =>
    { st with employees := st.employees ++ [employee] }
  | .employeeDeleted id => onEmployeeDeleted st id today confirmed
  | .parkingSpaceAdded space =>
    { st with parkingSpaces := st.parkingSpaces ++ [space] }
  | .parkingSpaceDeleted _ => st

/-- Embedding of `deleteParkingSpace` (`parking.js` lines 274–296) on the parking
manager's own list, composed with the dispatch of `parkingSpaceDeleted` to
the assignment manager. -/
def deleteParkingSpaceSystem (pmSpaces : List ParkingSpace)
    (amState : AppState) (id : Nat) (today : String) (confirmed : Bool) :
    List ParkingSpace × AppState :=
  match pmSpaces.find? (fun space => space.id == id) with
  | none => (pmSpaces, amState)
  | some _ =>
    if !confirmed then (pmSpaces, amState)
    else
      (pmSpaces.filter (fun space => !(space.id == id)),
        assignmentManagerOnEvent amState (.parkingSpaceDeleted id) today
          confirmed)

theorem endAssignment_assignments_eq (st : AppState) (aid : Nat)
    (today : String) :
    (endAssignment st aid today true).assignments =
      match st.assignments.find? (fun a => a.id == aid) with
      | none => st.assignments
      | some _ =>
        updateFirst (fun a => a.id == aid)
          (fun a => { a with activa := false, fechaFin := some today })
          st.assignments := by
  rcases hf : st.assignments.find? (fun a => a.id == aid) with _ | a <;>
    simp [endAssignment, hf]

theorem updateFirst_deactivates (l : List Assignment) (aid : Nat)
    (today : String) (hnd : (l.map Assignment.id).Nodup) :
    ∀ a' ∈ updateFirst (fun a => a.id == aid)
        (fun a => { a with activa := false, fechaFin := some today }) l,
      a'.id = aid → a'.activa = false := by
  induction l with
  | nil =>
    intro a' h
    simp [updateFirst] at h
  | cons x xs ih =>
    intro a' ha' hid
    by_cases hx : x.id == aid
    · simp only [updateFirst, hx, if_true] at ha'
      rcases List.mem_cons.mp ha' with rfl | hmem
      · rfl
      · exfalso
        rw [List.map_cons] at hnd
        have hxid : x.id = aid := by simpa using hx
        refine (List.nodup_cons.mp hnd).1 ?_
        rw [hxid, ← hid]
        exact List.mem_map_of_mem _ hmem
    · simp only [updateFirst, hx, Bool.false_eq_true, if_false] at ha'
      rcases List.mem_cons.mp ha' with rfl | hmem
      · exact absurd (by simp [hid]) hx
      · rw [List.map_cons] at hnd
        exact ih hnd.of_cons a' hmem hid

theorem updateFirst_active_mem (l : List Assignment) (aid : Nat)
    (today : String) :
    ∀ a' ∈ updateFirst (fun a => a.id == aid)
        (fun a => { a with activa := false, fechaFin := some today }) l,
      a'.activa = true → a' ∈ l := by
  intro a' h hact
  rcases mem_updateFirst _ _ _ _ h with hmem | ⟨x, hx, hpx, rfl⟩
  · exact hmem
  · simp at hact

/-- The cascade fold: ending, one after another, the assignments of a list
that covers every still-active assignment of the employee leaves no active
assignment of that employee, and deletes none (the id column is preserved). -/
theorem cascade_fold (today : String) (eid : Nat) :
    ∀ (rem : List Assignment) (acc : AppState),
      ((acc.assignments.map Assignment.id).Nodup) →
      (∀ a' ∈ acc.assignments, a'.empleadoId = eid → a'.activa = true →
        a'.id ∈ rem.map Assignment.id) →
      (∀ a' ∈ (rem.foldl
          (fun acc2 assignment => endAssignment acc2 assignment.id today true)
          acc).assignments,
        a'.empleadoId = eid → a'.activa = false) ∧
      ((rem.foldl
          (fun acc2 assignment => endAssignment acc2 assignment.id today true)
          acc).assignments.map Assignment.id =
        acc.assignments.map Assignment.id) := by
  intro rem
  induction rem with
  | nil =>
    intro acc hnd hcover
    refine ⟨?_, rfl⟩
    intro a' ha' heid
    rcases hact : a'.activa with _ | _
    · rfl
    · exact absurd (hcover a' ha' heid hact) (by simp)
  | cons b rest ih =>
    intro acc hnd hcover
    simp only [List.foldl_cons]
    have hassign := endAssignment_assignments_eq acc b.id today
    rcases hf : acc.assignments.find? (fun a => a.id == b.id) with _ | x
    · rw [hf] at hassign
      have hsame : (endAssignment acc b.id today true).assignments =
          acc.assignments := hassign
      have hnd' : ((endAssignment acc b.id today
          true).assignments.map Assignment.id).Nodup := by
        rw [hsame]
        exact hnd
      have hcover' : ∀ a' ∈ (endAssignment acc b.id today true).assignments,
          a'.empleadoId = eid → a'.activa = true →
            a'.id ∈ rest.map Assignment.id := by
        intro a' ha' heid hact
        rw [hsame] at ha'
        have hmem := hcover a' ha' heid hact
        rw [List.map_cons] at hmem
        rcases List.mem_cons.mp hmem with hbid | hrest
        · exfalso
          have := List.find?_eq_none.mp hf a' ha'
          simp [hbid] at this
        · exact hrest
      have := ih (endAssignment acc b.id today true) hnd' hcover'
      refine ⟨this.1, ?_⟩
      rw [this.2, hsame]
    · rw [hf] at hassign
      have hupd : (endAssignment acc b.id today true).assignments =
          updateFirst (fun a => a.id == b.id)
            (fun a => { a with activa := false, fechaFin := some today })
            acc.assignments := hassign
      have hids : (endAssignment acc b.id today
          true).assignments.map Assignment.id =
            acc.assignments.map Assignment.id := by
        rw [hupd]
        exact updateFirst_map (fun a => a.id == b.id)
          (fun a => { a with activa := false, fechaFin := some today })
          Assignment.id (fun y => rfl) acc.assignments
      have hnd' : ((endAssignment acc b.id today
          true).assignments.map Assignment.id).Nodup := by
        rw [hids]
        exact hnd
      have hcover' : ∀ a' ∈ (endAssignment acc b.id today true).assignments,
          a'.empleadoId = eid → a'.activa = true →
            a'.id ∈ rest.map Assignment.id := by
        intro a' ha' heid hact
        have ha'' : a' ∈ acc.assignments := by
          rw [hupd] at ha'
          exact updateFirst_active_mem acc.assignments b.id today a' ha' hact
        have hmem := hcover a' ha'' heid hact
        rw [List.map_cons] at hmem
        rcases List.mem_cons.mp hmem with hbid | hrest
        · exfalso
          have hdeact := updateFirst_deactivates acc.assignments b.id today
            hnd a' (by rw [hupd] at ha'; exact ha') hbid
          rw [hdeact] at hact
          exact absurd hact (by simp)
        · exact hrest
      have := ih (endAssignment acc b.id today true) hnd' hcover'
      refine ⟨this.1, ?_⟩
      rw [this.2, hids]

end Parqueadero

namespace Parqueadero

/-! ## Theorems for claim C9 -/

/-- C9 (counterexample): the claim states that deleting a ParkingSpace
cascades to deactivate every assignment referencing it.  On the state
`stC4`, whose single assignment actively references space 1, deleting space 1
(confirmed) removes the space from the parking store, yet the assignment
store — which registers no listener for the `parkingSpaceDeleted` event — is
completely unchanged: the referencing assignment is still active. -/
theorem C9_counterexample :
    (deleteParkingSpaceSystem [spC001] stC4 1 "2024-06-01" true).1 = [] ∧
    (deleteParkingSpaceSystem [spC001] stC4 1 "2024-06-01" true).2 = stC4 ∧
    (∃ a ∈ (deleteParkingSpaceSystem [spC001] stC4 1 "2024-06-01"
        true).2.assignments,
      a.parqueaderoId = 1 ∧ a.activa = true) := by
  decide

/-- C9 (amended): deleting an Employee cascades to its assignments — after
`onEmployeeDeleted` (with each termination confirmed) no assignment of that
employee is active, and none is deleted: the assignment-id column is
preserved.  Deleting a ParkingSpace does not cascade: the assignment store is
left entirely untouched, because `bindEvents` registers no listener for the
`parkingSpaceDeleted` event. -/
theorem C9_deletion_cascade (st : AppState) (today : String)
    (hA : (st.assignments.map Assignment.id).Nodup) :
    (∀ eid,
      (∀ a ∈ (onEmployeeDeleted st eid today true).assignments,
        a.empleadoId = eid → a.activa = false) ∧
      ((onEmployeeDeleted st eid today true).assignments.map Assignment.id =
        st.assignments.map Assignment.id)) ∧
    (∀ pmSpaces id confirmed,
      (deleteParkingSpaceSystem pmSpaces st id today confirmed).2 = st) := by
  constructor
  · intro eid
    have hcov : ∀ a' ∈ st.assignments, a'.empleadoId = eid →
        a'.activa = true →
        a'.id ∈ (st.assignments.filter
          (fun a => a.empleadoId == eid && a.activa)).map Assignment.id := by
      intro a' ha' heid hact
      exact List.mem_map_of_mem _
        (List.mem_filter.mpr ⟨ha', by simp [heid, hact]⟩)
    have := cascade_fold today eid
      (st.assignments.filter (fun a => a.empleadoId == eid && a.activa))
      { st with
        employees := st.employees.filter (fun emp => !(emp.id == eid)) }
      hA hcov
    exact this
  · intro pmSpaces id confirmed
    rcases hf : pmSpaces.find? (fun space => space.id == id) with _ | sp
    · simp [deleteParkingSpaceSystem, hf]
    · rcases confirmed with _ | _ <;>
        simp [deleteParkingSpaceSystem, hf, assignmentManagerOnEvent]

/-- C9 witness: on `stC4`, deleting employee 1 deactivates its assignment
without deleting it, while deleting space 1 leaves the assignment store
unchanged. -/
theorem C9_deletion_cascade_witness :
    ((stC4.assignments.map Assignment.id).Nodup) ∧
    (∀ a ∈ (onEmployeeDeleted stC4 1 "2024-06-01" true).assignments,
      a.empleadoId = 1 → a.activa = false) ∧
    ((onEmployeeDeleted stC4 1 "2024-06-01" true).assignments.map
      Assignment.id = stC4.assignments.map Assignment.id) ∧
    (deleteParkingSpaceSystem [spC001] stC4 1 "2024-06-01" true).2 = stC4 := by
  refine ⟨by decide, ?_, ?_, ?_⟩
  · exact ((C9_deletion_cascade stC4 "2024-06-01" (by decide)).1 1).1
  · exact ((C9_deletion_cascade stC4 "2024-06-01" (by decide)).1 1).2
  · exact (C9_deletion_cascade stC4 "2024-06-01" (by decide)).2 [spC001] 1 true

end Parqueadero
